import Mathlib

/-!
# WinPmem kernel read path (`src/kernel/read.c`)

A shallow embedding of the physical-memory read path of the WinPmem driver:
the three page strategies (`PhysicalMemoryPartialRead`, `MapIOPagePartialRead`,
`PTEMmapPartialRead`), the windowed reader `DeviceRead` and the two read entry
points `pmemFastIoRead` and `PmemRead`.

Conventions of the embedding.

* `LARGE_INTEGER.QuadPart` (a signed 64-bit `LONGLONG`) is an `Int`; results of
  64-bit signed arithmetic are wrapped by `toLONGLONG`.  `ULONG` values are
  `Nat`, wrapped modulo `2^32` where the C code computes them.  The C remainder
  operator on signed operands is `Int.tmod` (truncation towards zero).
* User memory is a byte-addressed function `Memory`; a pointer is an address.
  The system address obtained for a locked MDL aliases the user window, so the
  handler is handed the window address itself.
* Kernel services whose outcome the driver cannot control are the fields of
  `Kernel`; every outcome the code tests for is a possible value of the field.
* Every strategy reports the mapping primitives it called (`Prim`), and
  `DeviceRead` reports the handler invocations it made (`HandlerCall`), in
  order.
* The `while` loop of `DeviceRead` is driven by a fuel argument; `none` means
  that the loop did not finish within the fuel.
-/

namespace WinPmem

/-! ## Machine integers and constants -/

/-- Modelled from the spec: the page size `PAGE_SIZE` of the WDK headers (not
among the sources); the value 4096 is the one the spec's examples use. -/
def PAGE_SIZE : Nat := 4096

/-- An `NTSTATUS` code, as its unsigned 32-bit pattern. -/
abbrev NTSTATUS := Nat

/-- The `STATUS_SUCCESS` code of ntstatus.h. -/
def STATUS_SUCCESS : NTSTATUS := 0x00000000
/-- The `STATUS_INSUFFICIENT_RESOURCES` code of ntstatus.h. -/
def STATUS_INSUFFICIENT_RESOURCES : NTSTATUS := 0xC000009A
/-- The `STATUS_IO_DEVICE_ERROR` code of ntstatus.h. -/
def STATUS_IO_DEVICE_ERROR : NTSTATUS := 0xC0000185
/-- The `STATUS_INVALID_PARAMETER` code of ntstatus.h. -/
def STATUS_INVALID_PARAMETER : NTSTATUS := 0xC000000D
/-- The `STATUS_NOT_IMPLEMENTED` code of ntstatus.h. -/
def STATUS_NOT_IMPLEMENTED : NTSTATUS := 0xC0000002
/-- The `STATUS_ACCESS_VIOLATION` code of ntstatus.h (a typical probe fault). -/
def STATUS_ACCESS_VIOLATION : NTSTATUS := 0xC0000005

/-- The `PASSIVE_LEVEL` interrupt request level. -/
def PASSIVE_LEVEL : Nat := 0

/-- Conversion of an integer value to `ULONG` (reduction modulo `2^32`). -/
def toULONG (x : Int) : Nat := (x % 4294967296).toNat

/-- Wrap of an integer value into the signed 64-bit range of `LONGLONG`. -/
def toLONGLONG (x : Int) : Int :=
  (x + 9223372036854775808) % 18446744073709551616 - 9223372036854775808

/-- The value held in the signed `QuadPart` field for an unsigned 64-bit offset. -/
def asQuadPart (u : Nat) : Int := toLONGLONG (u : Int)

/-! ## Memory and kernel services -/

/-- Byte-addressed memory of the requesting process. -/
abbrev Memory := Nat → Nat

/-- `RtlCopyMemory(dst, src, n)`: `src i` is the byte at `src + i`. -/
def RtlCopyMemory (mem : Memory) (dst : Nat) (src : Nat → Nat) (n : Nat) : Memory :=
  fun a => if dst ≤ a ∧ a < dst + n then src (a - dst) else mem a

/-- `RtlZeroMemory(dst, n)`. -/
def RtlZeroMemory (mem : Memory) (dst : Nat) (n : Nat) : Memory :=
  fun a => if dst ≤ a ∧ a < dst + n then 0 else mem a

/-- One page mapped by `MmMapIoSpace` or shown by the rogue page: `bytes i` is
the byte at `mapped_buffer + i`, and `faults` tells whether touching the page
raises an access violation (caught by the `try`/`except` around the copy). -/
structure MappedPage where
  bytes : Nat → Nat
  faults : Bool

/-- Modelled from the spec: the PTE remapper object held by the device
extension (pte_mmap.h is not among the sources).  `remap_page target` is
`some page` when the call returns `PTE_SUCCESS`, `page` being what the rogue
page shows afterwards, and `none` otherwise. -/
structure PTE_MMAP_OBJ where
  remap_page : Int → Option MappedPage

/-- Modelled from the spec: the acquisition mode stored in the device
extension (winpmem.h is not among the sources).  `Unsupported` stands for any
stored value other than the three mode constants. -/
inductive AcquisitionMode
  | Physical
  | IoSpace
  | Pte
  | Unsupported
  deriving DecidableEq, Repr

/-- Modelled from the spec: the fields of the device extension that the read
path uses (winpmem.h is not among the sources).  `MemoryHandle = none` is the
NULL handle; `mu` is true while the fast mutex is held. -/
structure DEVICE_EXTENSION where
  mode : AcquisitionMode
  MemoryHandle : Option Nat
  pte_mmapper : Option PTE_MMAP_OBJ
  mu : Bool

/-- Outcomes of the kernel services called by the read path.
`ZwOpenSection` is the handle opened on success; `ZwMapViewOfSection h o` is
the mapped view for section offset `o` on success; `MmMapIoSpace b` is the
mapping of the page at `b`, `none` for NULL; the MDL services are keyed by the
window (address and length); a probe yields `some code` when it raises the
exception `code`. -/
structure Kernel where
  KeGetCurrentIrql : Nat
  ZwOpenSection : Option Nat
  ZwMapViewOfSection : Nat → Int → Option (Nat → Nat)
  MmMapIoSpace : Int → Option MappedPage
  IoAllocateMdl : Nat → Nat → Bool
  MmProbeAndLockPages : Nat → Nat → Option NTSTATUS
  MmGetSystemAddressForMdlSafe : Nat → Nat → Bool
  ProbeForWrite : Nat → Nat → Option NTSTATUS

/-- A call of a mapping primitive, with the offset or address handed to it. -/
inductive Prim
  | ZwOpenSection
  | ZwMapViewOfSection (SectionOffset : Int)
  | ZwUnmapViewOfSection
  | MmMapIoSpace (ViewBase : Int)
  | MmUnmapIoSpace
  | remap_page (target : Int)
  deriving DecidableEq, Repr

/-- What a page strategy leaves behind: the `ULONG` it returns, the memory and
the device extension after the call, and the mapping primitives it called. -/
structure StrategyResult where
  ret : Nat
  mem : Memory
  ext : DEVICE_EXTENSION
  prims : List Prim

/-- The handler type of `DeviceRead`:
`handler extension offset mem buf count`, `buf` an address in `mem`. -/
abbrev Handler := DEVICE_EXTENSION → Int → Memory → Nat → Nat → StrategyResult

/-! ## Page strategies -/

/-- The first line of each strategy:
`ULONG page_offset = offset.QuadPart % PAGE_SIZE;`. -/
def page_offset (offset : Int) : Nat :=
  toULONG (Int.tmod offset (PAGE_SIZE : Int))

/-- The second line of each strategy:
`ULONG to_read = min(PAGE_SIZE - page_offset, count);` in `ULONG` arithmetic. -/
def to_read (offset : Int) (count : Nat) : Nat :=
  min ((PAGE_SIZE + 4294967296 - page_offset offset) % 4294967296) count

/-- `EnsureExtensionHandle`: opens the section handle when the extension has
none; returns 1 (`true`) when a handle is available. -/
def EnsureExtensionHandle (k : Kernel) (extension : DEVICE_EXTENSION) :
    Bool × DEVICE_EXTENSION × List Prim :=
  match extension.MemoryHandle with
  | some _ => (true, extension, [])
  | none =>
    match k.ZwOpenSection with
    | some h => (true, { extension with MemoryHandle := some h }, [Prim.ZwOpenSection])
    | none => (false, extension, [Prim.ZwOpenSection])

/-- `PhysicalMemoryPartialRead`: the section-mapped strategy. -/
def PhysicalMemoryPartialRead (k : Kernel) : Handler :=
  fun extension offset mem buf count =>
    let po := page_offset offset
    let n := to_read offset count
    match EnsureExtensionHandle k extension with
    | (false, ext1, ps) => ⟨n, mem, ext1, ps⟩
    | (true, ext1, ps) =>
      match k.ZwMapViewOfSection (ext1.MemoryHandle.getD 0) offset with
      | some mapped_buffer =>
        ⟨n, RtlCopyMemory mem buf (fun i => mapped_buffer (po + i)) n, ext1,
          ps ++ [Prim.ZwMapViewOfSection offset, Prim.ZwUnmapViewOfSection]⟩
      | none =>
        ⟨n, RtlZeroMemory mem buf n, ext1, ps ++ [Prim.ZwMapViewOfSection offset]⟩

/-- `MapIOPagePartialRead`: the strategy that maps one page with `MmMapIoSpace`. -/
def MapIOPagePartialRead (k : Kernel) : Handler :=
  fun extension offset mem buf count =>
    let po := page_offset offset
    let n := to_read offset count
    let ViewBase := toLONGLONG (offset - (po : Int))
    match k.MmMapIoSpace ViewBase with
    | some mapped_buffer =>
      if mapped_buffer.faults then
        ⟨0, mem, extension, [Prim.MmMapIoSpace ViewBase, Prim.MmUnmapIoSpace]⟩
      else
        ⟨n, RtlCopyMemory mem buf (fun i => mapped_buffer.bytes (po + i)) n, extension,
          [Prim.MmMapIoSpace ViewBase, Prim.MmUnmapIoSpace]⟩
    | none => ⟨0, mem, extension, [Prim.MmMapIoSpace ViewBase]⟩

/-- `PTEMmapPartialRead`: the strategy that repoints the rogue page. -/
def PTEMmapPartialRead (_k : Kernel) : Handler :=
  fun extension offset mem buf count =>
    let po := page_offset offset
    let n := to_read offset count
    match extension.pte_mmapper with
    | none => ⟨0, mem, extension, []⟩
    | some mmapper =>
      let target := toLONGLONG (offset - (po : Int))
      match mmapper.remap_page target with
      | none => ⟨0, mem, extension, [Prim.remap_page target]⟩
      | some rogue_page =>
        if rogue_page.faults then
          ⟨0, mem, extension, [Prim.remap_page target]⟩
        else
          ⟨n, RtlCopyMemory mem buf (fun i => rogue_page.bytes (po + i)) n, extension,
            [Prim.remap_page target]⟩

/-! ## The windowed reader -/

/-- One invocation of the handler by `DeviceRead`: the arguments, the value
returned, and the mapping primitives the handler called. -/
structure HandlerCall where
  offset : Int
  buf : Nat
  count : Nat
  ret : Nat
  prims : List Prim
  deriving DecidableEq, Repr

/-- What `DeviceRead` leaves behind: the returned status, `*total_read`, the
user memory, the device extension and the handler invocations made. -/
structure ReadResult where
  status : NTSTATUS
  total_read : Nat
  mem : Memory
  ext : DEVICE_EXTENSION
  calls : List HandlerCall

/-- The label `end:` of `DeviceRead`: release the mutex and return `status`. -/
def DeviceRead_end (status : NTSTATUS) (total_read : Nat) (mem : Memory)
    (extension : DEVICE_EXTENSION) (calls : List HandlerCall) : ReadResult :=
  ⟨status, total_read, mem, { extension with mu := false }, calls⟩

/-- The `while (*total_read < howMuchToRead)` loop of `DeviceRead`. -/
def DeviceRead_loop (k : Kernel) (handler : Handler) (howMuchToRead : Nat) :
    Nat → DEVICE_EXTENSION → Int → Nat → Nat → Memory → List HandlerCall → Option ReadResult
  | 0, extension, _, _, total_read, mem, calls =>
    if total_read < howMuchToRead then none
    else some (DeviceRead_end STATUS_SUCCESS total_read mem extension calls)
  | fuel + 1, extension, offset, toxic_buffer, total_read, mem, calls =>
    if total_read < howMuchToRead then
      let current_read_window := min PAGE_SIZE (howMuchToRead - total_read)
      if k.IoAllocateMdl toxic_buffer current_read_window = false then
        -- `return STATUS_INSUFFICIENT_RESOURCES;` without passing through `end:`
        some ⟨STATUS_INSUFFICIENT_RESOURCES, total_read, mem, extension, calls⟩
      else
        match k.MmProbeAndLockPages toxic_buffer current_read_window with
        | some code => some (DeviceRead_end code total_read mem extension calls)
        | none =>
          if k.MmGetSystemAddressForMdlSafe toxic_buffer current_read_window = false then
            some (DeviceRead_end STATUS_INSUFFICIENT_RESOURCES total_read mem extension calls)
          else
            let r := handler extension offset mem toxic_buffer current_read_window
            let calls1 := calls ++ [⟨offset, toxic_buffer, current_read_window, r.ret, r.prims⟩]
            if r.ret = 0 then
              some (DeviceRead_end STATUS_IO_DEVICE_ERROR total_read r.mem r.ext calls1)
            else
              DeviceRead_loop k handler howMuchToRead fuel r.ext
                (toLONGLONG (offset + (r.ret : Int))) (toxic_buffer + r.ret)
                ((total_read + r.ret) % 4294967296) r.mem calls1
    else some (DeviceRead_end STATUS_SUCCESS total_read mem extension calls)

/-- `DeviceRead`: zero `*total_read`, acquire the mutex, run the loop. -/
def DeviceRead (k : Kernel) (fuel : Nat) (extension : DEVICE_EXTENSION) (offset : Int)
    (mem : Memory) (toxic_buffer : Nat) (howMuchToRead : Nat) (handler : Handler) :
    Option ReadResult :=
  DeviceRead_loop k handler howMuchToRead fuel { extension with mu := true }
    offset toxic_buffer 0 mem []

/-! ## Entry points -/

/-- The mode dispatch shared by both entry points: the handler passed to
`DeviceRead` for each of the three modes, `none` for the final `else` branch
(`This acquisition mode is not supported!`). -/
def strategyOf (k : Kernel) : AcquisitionMode → Option Handler
  | AcquisitionMode.Physical => some (PhysicalMemoryPartialRead k)
  | AcquisitionMode.IoSpace => some (MapIOPagePartialRead k)
  | AcquisitionMode.Pte => some (PTEMmapPartialRead k)
  | AcquisitionMode.Unsupported => none

/-- The probing `try` block shared by both entry points: `some code` when a
`ProbeForWrite` raises the exception `code`. -/
def probeDestination (k : Kernel) (toxic_buffer : Nat) (BufLen : Nat) : Option NTSTATUS :=
  if BufLen ≤ PAGE_SIZE * 4 then
    k.ProbeForWrite toxic_buffer BufLen
  else
    match k.ProbeForWrite toxic_buffer PAGE_SIZE with
    | some code => some code
    | none =>
      match k.ProbeForWrite
          ((toxic_buffer + BufLen / 2 + 18446744073709551616 - PAGE_SIZE) % 18446744073709551616)
          PAGE_SIZE with
      | some code => some code
      | none =>
        k.ProbeForWrite
          ((toxic_buffer + BufLen + 18446744073709551616 - PAGE_SIZE) % 18446744073709551616)
          PAGE_SIZE

/-- What `pmemFastIoRead` leaves behind: the BOOLEAN it returns, the two fields
of the I/O status block, the memory, the extension and the handler calls. -/
structure FastIoResult where
  ret : Bool
  Status : NTSTATUS
  Information : Nat
  mem : Memory
  ext : DEVICE_EXTENSION
  calls : List HandlerCall

/-- What `PmemRead` leaves behind: the status it returns, the two fields of the
IRP's I/O status block, whether `PrivateCacheMap` was set, the memory, the
extension and the handler calls. -/
structure IrpResult where
  ret : NTSTATUS
  Status : NTSTATUS
  Information : Nat
  PrivateCacheMapSet : Bool
  mem : Memory
  ext : DEVICE_EXTENSION
  calls : List HandlerCall

/-- The label `bail_out:` of `pmemFastIoRead`. -/
def bail_out (status : NTSTATUS) (mem : Memory) (extension : DEVICE_EXTENSION) : FastIoResult :=
  ⟨false, status, 0, mem, extension, []⟩

/-- `pmemFastIoRead`: the Fast-I/O read entry point; `toxic_buffer = 0` is NULL. -/
def pmemFastIoRead (k : Kernel) (fuel : Nat) (extension : DEVICE_EXTENSION) (mem : Memory)
    (BufOffset : Int) (BufLen : Nat) (toxic_buffer : Nat) : Option FastIoResult :=
  if k.KeGetCurrentIrql ≠ PASSIVE_LEVEL then some (bail_out STATUS_SUCCESS mem extension)
  else if toxic_buffer = 0 then some (bail_out STATUS_INVALID_PARAMETER mem extension)
  else if BufLen = 0 then some (bail_out STATUS_INVALID_PARAMETER mem extension)
  else
    match probeDestination k toxic_buffer BufLen with
    | some code => some (bail_out code mem extension)
    | none =>
      match strategyOf k extension.mode with
      | some handler =>
        (DeviceRead k fuel extension BufOffset mem toxic_buffer BufLen handler).map fun r =>
          ⟨true, r.status, r.total_read, r.mem, r.ext, r.calls⟩
      | none => some ⟨true, STATUS_NOT_IMPLEMENTED, 0, mem, extension, []⟩

/-- The label `exit:` of `PmemRead`, reached by a `goto` (`total_read` is 0). -/
def PmemRead_exit (status : NTSTATUS) (mem : Memory) (extension : DEVICE_EXTENSION) : IrpResult :=
  ⟨status, status, 0, false, mem, extension, []⟩

/-- `PmemRead`: the IRP read entry point; `toxic_buffer = 0` is NULL. -/
def PmemRead (k : Kernel) (fuel : Nat) (extension : DEVICE_EXTENSION) (mem : Memory)
    (BufOffset : Int) (BufLen : Nat) (toxic_buffer : Nat) : Option IrpResult :=
  if k.KeGetCurrentIrql ≠ PASSIVE_LEVEL then some (PmemRead_exit STATUS_SUCCESS mem extension)
  else if toxic_buffer = 0 then some (PmemRead_exit STATUS_INVALID_PARAMETER mem extension)
  else if BufLen = 0 then some (PmemRead_exit STATUS_INVALID_PARAMETER mem extension)
  else
    match probeDestination k toxic_buffer BufLen with
    | some _ => some (PmemRead_exit STATUS_SUCCESS mem extension)
    | none =>
      match strategyOf k extension.mode with
      | some handler =>
        (DeviceRead k fuel extension BufOffset mem toxic_buffer BufLen handler).map fun r =>
          ⟨r.status, r.status, r.total_read, decide (r.status = STATUS_SUCCESS),
            r.mem, r.ext, r.calls⟩
      | none =>
        some ⟨STATUS_NOT_IMPLEMENTED, STATUS_NOT_IMPLEMENTED, 0, false, mem, extension, []⟩



/-! ## Hypotheses and fixtures used by the statements -/

/-- Every pinning step succeeds for every window: the MDL is allocated, the
pages are locked without an exception, and a system address is obtained. -/
def PinningSucceeds (k : Kernel) : Prop :=
  ∀ va len, k.IoAllocateMdl va len = true ∧ k.MmProbeAndLockPages va len = none ∧
    k.MmGetSystemAddressForMdlSafe va len = true

/-- The strategy of `mode` always succeeds over the simulated physical memory
`phys`: its mapping step succeeds for every page, the mapped page shows the
bytes of `phys` at the page holding the requested offset, and the copy does
not fault.  For the section strategy the view of a section offset is the page
containing that offset (the service rounds the offset down). -/
def StrategySucceeds (k : Kernel) (phys : Int → Nat) (mode : AcquisitionMode)
    (extension : DEVICE_EXTENSION) : Prop :=
  match mode with
  | AcquisitionMode.Physical =>
    (extension.MemoryHandle ≠ none ∨ k.ZwOpenSection ≠ none) ∧
    ∀ h o, 0 ≤ o → ∃ view, k.ZwMapViewOfSection h o = some view ∧
      ∀ i, i < PAGE_SIZE → view i = phys (o - o % 4096 + (i : Int))
  | AcquisitionMode.IoSpace =>
    ∀ b, ∃ page, k.MmMapIoSpace b = some page ∧ page.faults = false ∧
      ∀ i, i < PAGE_SIZE → page.bytes i = phys (b + (i : Int))
  | AcquisitionMode.Pte =>
    ∃ m, extension.pte_mmapper = some m ∧
      ∀ b, ∃ page, m.remap_page b = some page ∧ page.faults = false ∧
        ∀ i, i < PAGE_SIZE → page.bytes i = phys (b + (i : Int))
  | AcquisitionMode.Unsupported => False

/-- The windows of a fully successful read of `n` bytes from offset `o`: each
invocation starts where the previous one ended and returns the bytes up to the
next page boundary, or the remaining bytes if there are fewer. -/
def Chain : Int → Nat → List HandlerCall → Prop
  | _, n, [] => n = 0
  | o, n, c :: cs =>
    0 < n ∧ c.offset = o ∧ c.ret = min (4096 - (o % 4096).toNat) n ∧
      Chain (o + (c.ret : Int)) (n - c.ret) cs

/-- A simulated kernel over the physical memory `phys` in which every service
succeeds at passive level. -/
def simKernel (phys : Int → Nat) : Kernel where
  KeGetCurrentIrql := PASSIVE_LEVEL
  ZwOpenSection := some 1
  ZwMapViewOfSection := fun _ o => some (fun i => phys (o - o % 4096 + (i : Int)))
  MmMapIoSpace := fun b => some ⟨fun i => phys (b + (i : Int)), false⟩
  IoAllocateMdl := fun _ _ => true
  MmProbeAndLockPages := fun _ _ => none
  MmGetSystemAddressForMdlSafe := fun _ _ => true
  ProbeForWrite := fun _ _ => none

/-- A device extension over the simulated memory `phys`, with no section
handle yet, a working remapper, and the mutex free. -/
def simExtension (phys : Int → Nat) (mode : AcquisitionMode) : DEVICE_EXTENSION :=
  ⟨mode, none, some ⟨fun b => some ⟨fun i => phys (b + (i : Int)), false⟩⟩, false⟩

/-- Simulated physical memory whose pages are filled with their page index. -/
def pageIndexMemory : Int → Nat := fun a => (a / 4096).toNat

/-- The page window of an invocation as the strategies compute it: the page
base `offset - page_offset`, the intra-page offset, and the bytes copied. -/
def windowOf (c : HandlerCall) : Int × Nat × Nat :=
  (toLONGLONG (c.offset - (page_offset c.offset : Int)), page_offset c.offset, c.ret)

/-- The number of pages touched by the byte range `[offset, offset + length)`,
for `0 < length`. -/
def pagesTouched (offset : Int) (length : Nat) : Int :=
  (offset + (length : Int) - 1) / (PAGE_SIZE : Int) - offset / (PAGE_SIZE : Int) + 1

/-- A handler that never reports more bytes than it was asked for. -/
def Bounded (handler : Handler) : Prop :=
  ∀ ext o mem buf count, (handler ext o mem buf count).ret ≤ count

/-- The bookkeeping of the loop of `DeviceRead` along its handler invocations,
for a request of `length` bytes: each invocation is made while the total is
below `length`, at the current offset, for the current window size, and the
next one starts from the wrapped sum `offset.QuadPart += bytes_read`. -/
def Steps (length : Nat) : Int → Nat → List HandlerCall → Prop
  | _, _, [] => True
  | o, total, c :: cs =>
    total < length ∧ c.offset = o ∧ c.count = min PAGE_SIZE (length - total) ∧
      c.ret ≤ c.count ∧ Steps length (toLONGLONG (o + (c.ret : Int))) (total + c.ret) cs

/-- The simulated kernel with a hole: the page at base `hole` cannot be mapped
by `MmMapIoSpace`. -/
def holeKernel (phys : Int → Nat) (hole : Int) : Kernel :=
  { simKernel phys with
    MmMapIoSpace := fun b => if b = hole then none else some ⟨fun i => phys (b + (i : Int)), false⟩ }

/-- A kernel in which the section opens but no mapping succeeds: the view-map
call fails and `MmMapIoSpace` returns NULL. -/
def noMapKernel : Kernel :=
  { simKernel pageIndexMemory with
    ZwMapViewOfSection := fun _ _ => none
    MmMapIoSpace := fun _ => none }

/-- A kernel in which the physical-memory section cannot be opened. -/
def noSectionKernel : Kernel :=
  { simKernel pageIndexMemory with ZwOpenSection := none }

/-- A device extension whose remapper never returns `PTE_SUCCESS`. -/
def noRemapExtension (mode : AcquisitionMode) : DEVICE_EXTENSION :=
  ⟨mode, none, some ⟨fun _ => none⟩, false⟩

/-- A kernel in which `IoAllocateMdl` returns NULL. -/
def noMdlKernel : Kernel :=
  { simKernel pageIndexMemory with IoAllocateMdl := fun _ _ => false }

/-- A kernel in which every write probe of the destination raises
`STATUS_ACCESS_VIOLATION`. -/
def badBufferKernel : Kernel :=
  { simKernel pageIndexMemory with ProbeForWrite := fun _ _ => some STATUS_ACCESS_VIOLATION }

/-- The mapping step of the strategy of `mode` fails at `offset`: the section
handle is available and the view-map call fails; `MmMapIoSpace` returns NULL;
the remapper is absent or `remap_page` does not return `PTE_SUCCESS`. -/
def MappingStepFails (k : Kernel) (extension : DEVICE_EXTENSION) (offset : Int) :
    AcquisitionMode → Bool
  | AcquisitionMode.Physical =>
    match EnsureExtensionHandle k extension with
    | (true, ext1, _) => (k.ZwMapViewOfSection (ext1.MemoryHandle.getD 0) offset).isNone
    | (false, _, _) => false
  | AcquisitionMode.IoSpace =>
    (k.MmMapIoSpace (toLONGLONG (offset - (page_offset offset : Int)))).isNone
  | AcquisitionMode.Pte =>
    match extension.pte_mmapper with
    | none => true
    | some m => (m.remap_page (toLONGLONG (offset - (page_offset offset : Int)))).isNone
  | AcquisitionMode.Unsupported => false

/-- A simulated kernel whose `MmMapIoSpace` maps exactly one page: the mapped
buffer shows the bytes of `phys` inside the page and the filler byte `0xCC`
beyond its end. -/
def boundedKernel (phys : Int → Nat) : Kernel :=
  { simKernel phys with
    MmMapIoSpace := fun b =>
      some ⟨fun i => if i < PAGE_SIZE then phys (b + (i : Int)) else 204, false⟩ }

/-! ## The windows of a request

The windows into which a request is split, described from the handler's side:
the loop variables at the top of an iteration, what the handler does when it is
invoked there, and the variables the next iteration starts from. -/

/-- The variables of the loop of `DeviceRead` at the top of an iteration. -/
structure LoopState where
  ext : DEVICE_EXTENSION
  offset : Int
  toxic_buffer : Nat
  total_read : Nat
  mem : Memory

/-- The loop variables with which `DeviceRead` reaches its first window:
`*total_read = 0` and the mutex acquired. -/
def loopEntry (extension : DEVICE_EXTENSION) (offset : Int) (mem : Memory)
    (toxic_buffer : Nat) : LoopState :=
  ⟨{ extension with mu := true }, offset, toxic_buffer, 0, mem⟩

/-- The size of the window at `s` for a request of `length` bytes. -/
def windowSize (length : Nat) (s : LoopState) : Nat :=
  min PAGE_SIZE (length - s.total_read)

/-- What the handler does when invoked on the window at `s`. -/
def invoke (handler : Handler) (length : Nat) (s : LoopState) : StrategyResult :=
  handler s.ext s.offset s.mem s.toxic_buffer (windowSize length s)

/-- The invocation of the handler on the window at `s`, as a record. -/
def recordOf (handler : Handler) (length : Nat) (s : LoopState) : HandlerCall :=
  ⟨s.offset, s.toxic_buffer, windowSize length s,
    (invoke handler length s).ret, (invoke handler length s).prims⟩

/-- The loop variables of the window that follows the one at `s`: offset,
destination and total advanced by the bytes the handler returned. -/
def advance (handler : Handler) (length : Nat) (s : LoopState) : LoopState :=
  ⟨(invoke handler length s).ext,
    toLONGLONG (s.offset + ((invoke handler length s).ret : Int)),
    s.toxic_buffer + (invoke handler length s).ret,
    (s.total_read + (invoke handler length s).ret) % 4294967296,
    (invoke handler length s).mem⟩

/-- The three pinning steps succeed for the window at `s`. -/
def Pinned (k : Kernel) (length : Nat) (s : LoopState) : Prop :=
  k.IoAllocateMdl s.toxic_buffer (windowSize length s) = true ∧
  k.MmProbeAndLockPages s.toxic_buffer (windowSize length s) = none ∧
  k.MmGetSystemAddressForMdlSafe s.toxic_buffer (windowSize length s) = true

/-- `Windows k handler length s cs t`: starting from `s`, the handler succeeds
on the consecutive windows recorded in `cs`, and `t` holds the loop variables
after them.  A window succeeds when bytes remain to be read, its destination
is pinned, and the handler, invoked on it, returns at least one byte and at
most the bytes it was asked for. -/
def Windows (k : Kernel) (handler : Handler) (length : Nat) :
    LoopState → List HandlerCall → LoopState → Prop
  | s, [], t => t = s
  | s, c :: cs, t =>
    s.total_read < length ∧ Pinned k length s ∧ c = recordOf handler length s ∧
      0 < c.ret ∧ c.ret ≤ c.count ∧ Windows k handler length (advance handler length s) cs t


/-! ## Window arithmetic -/

theorem page_offset_of_nonneg (o : Int) (h : 0 ≤ o) : (page_offset o : Int) = o % 4096 := by
  unfold page_offset toULONG PAGE_SIZE
  rw [Int.tmod_eq_emod h (by norm_num)]
  simp only [Nat.cast_ofNat]
  omega

theorem to_read_of_nonneg (o : Int) (c : Nat) (h : 0 ≤ o) :
    to_read o c = min (4096 - (o % 4096).toNat) c := by
  have := page_offset_of_nonneg o h
  unfold to_read PAGE_SIZE
  omega

theorem toLONGLONG_of_range (x : Int) (h0 : -9223372036854775808 ≤ x)
    (h1 : x < 9223372036854775808) : toLONGLONG x = x := by
  unfold toLONGLONG
  omega

theorem viewBase_of_nonneg (o : Int) (h0 : 0 ≤ o) (h1 : o < 9223372036854775808) :
    toLONGLONG (o - (page_offset o : Int)) = o - o % 4096 := by
  rw [page_offset_of_nonneg o h0]
  apply toLONGLONG_of_range <;> omega

theorem RtlCopyMemory_inside (mem : Memory) (dst : Nat) (src : Nat → Nat) (n j : Nat)
    (h : j < n) : RtlCopyMemory mem dst src n (dst + j) = src j := by
  unfold RtlCopyMemory
  have h1 : dst ≤ dst + j ∧ dst + j < dst + n := by omega
  simp [h1]

theorem RtlCopyMemory_outside (mem : Memory) (dst : Nat) (src : Nat → Nat) (n a : Nat)
    (h : a < dst ∨ dst + n ≤ a) : RtlCopyMemory mem dst src n a = mem a := by
  unfold RtlCopyMemory
  have h1 : ¬ (dst ≤ a ∧ a < dst + n) := by omega
  simp [h1]

/-! ## The strategies under success -/

theorem strategy_success {k : Kernel} {phys : Int → Nat} {mode : AcquisitionMode}
    {handler : Handler} (hs : strategyOf k mode = some handler)
    (ext : DEVICE_EXTENSION) (hok : StrategySucceeds k phys mode ext)
    (o : Int) (mem : Memory) (buf count : Nat)
    (ho : 0 ≤ o) (ho2 : o < 9223372036854775808) :
    (handler ext o mem buf count).ret = to_read o count ∧
    (∀ j, j < to_read o count → (handler ext o mem buf count).mem (buf + j) = phys (o + (j : Int))) ∧
    (∀ a, a < buf ∨ buf + to_read o count ≤ a → (handler ext o mem buf count).mem a = mem a) ∧
    StrategySucceeds k phys mode (handler ext o mem buf count).ext ∧
    (handler ext o mem buf count).ext.mu = ext.mu := by
  have hpo := page_offset_of_nonneg o ho
  have htr := to_read_of_nonneg o count ho
  have hvb := viewBase_of_nonneg o ho ho2
  have key : ∀ (bytes : Nat → Nat) (b : Int), b = o - o % 4096 →
      (∀ i, i < PAGE_SIZE → bytes i = phys (b + (i : Int))) →
      ∀ j, j < to_read o count →
        RtlCopyMemory mem buf (fun i => bytes (page_offset o + i)) (to_read o count) (buf + j)
          = phys (o + (j : Int)) := by
    intro bytes b hb hbytes j hj
    rw [RtlCopyMemory_inside _ _ _ _ _ hj]
    have hlt : page_offset o + j < PAGE_SIZE := by unfold PAGE_SIZE; omega
    rw [hbytes _ hlt, hb]
    congr 1
    push_cast
    omega
  cases mode with
  | Physical =>
    simp only [strategyOf, Option.some.injEq] at hs
    subst hs
    obtain ⟨hh, hv⟩ := hok
    have hens : ∃ ext1 ps, EnsureExtensionHandle k ext = (true, ext1, ps) ∧
        ext1.MemoryHandle ≠ none ∧ ext1.mu = ext.mu := by
      unfold EnsureExtensionHandle
      cases hm : ext.MemoryHandle with
      | some h => exact ⟨ext, [], rfl, by simp [hm], rfl⟩
      | none =>
        cases hz : k.ZwOpenSection with
        | some h => exact ⟨_, _, rfl, by simp, rfl⟩
        | none => simp [hm, hz] at hh
    obtain ⟨ext1, ps, he, hne, hmu⟩ := hens
    obtain ⟨view, hview, hb⟩ := hv (ext1.MemoryHandle.getD 0) o ho
    simp only [PhysicalMemoryPartialRead, he, hview]
    refine ⟨trivial, ?_, ?_, ⟨Or.inl hne, hv⟩, hmu⟩
    · exact key view _ rfl hb
    · intro a ha
      exact RtlCopyMemory_outside _ _ _ _ _ ha
  | IoSpace =>
    simp only [strategyOf, Option.some.injEq] at hs
    subst hs
    obtain ⟨page, hp, hf, hb⟩ := hok (o - o % 4096)
    simp only [MapIOPagePartialRead, hvb, hp, hf, Bool.false_eq_true, if_false]
    refine ⟨trivial, ?_, ?_, hok, trivial⟩
    · exact key page.bytes _ rfl hb
    · intro a ha
      exact RtlCopyMemory_outside _ _ _ _ _ ha
  | Pte =>
    simp only [strategyOf, Option.some.injEq] at hs
    subst hs
    obtain ⟨m, hm, hall⟩ := hok
    obtain ⟨page, hp, hf, hb⟩ := hall (o - o % 4096)
    simp only [PTEMmapPartialRead, hvb, hm, hp, hf, Bool.false_eq_true, if_false]
    refine ⟨trivial, ?_, ?_, ⟨m, hm, hall⟩, trivial⟩
    · exact key page.bytes _ rfl hb
    · intro a ha
      exact RtlCopyMemory_outside _ _ _ _ _ ha
  | Unsupported => simp [strategyOf] at hs

/-! ## The loop of `DeviceRead` on a fully successful run -/

theorem DeviceRead_loop_done (k : Kernel) (handler : Handler) (length fuel : Nat)
    (ext : DEVICE_EXTENSION) (o : Int) (tb total : Nat) (mem : Memory)
    (calls : List HandlerCall) (h : ¬ total < length) :
    DeviceRead_loop k handler length fuel ext o tb total mem calls
      = some (DeviceRead_end STATUS_SUCCESS total mem ext calls) := by
  cases fuel with
  | zero => simp only [DeviceRead_loop, h, if_false]
  | succ n => simp only [DeviceRead_loop, h, if_false]

theorem DeviceRead_loop_step (k : Kernel) (handler : Handler) (length fuel : Nat)
    (ext : DEVICE_EXTENSION) (o : Int) (tb total : Nat) (mem : Memory)
    (calls : List HandlerCall) (h : total < length)
    (hA : k.IoAllocateMdl tb (min PAGE_SIZE (length - total)) = true)
    (hP : k.MmProbeAndLockPages tb (min PAGE_SIZE (length - total)) = none)
    (hG : k.MmGetSystemAddressForMdlSafe tb (min PAGE_SIZE (length - total)) = true) :
    DeviceRead_loop k handler length (fuel + 1) ext o tb total mem calls =
      if (handler ext o mem tb (min PAGE_SIZE (length - total))).ret = 0 then
        some (DeviceRead_end STATUS_IO_DEVICE_ERROR total
          (handler ext o mem tb (min PAGE_SIZE (length - total))).mem
          (handler ext o mem tb (min PAGE_SIZE (length - total))).ext
          (calls ++ [⟨o, tb, min PAGE_SIZE (length - total),
            (handler ext o mem tb (min PAGE_SIZE (length - total))).ret,
            (handler ext o mem tb (min PAGE_SIZE (length - total))).prims⟩]))
      else
        DeviceRead_loop k handler length fuel
          (handler ext o mem tb (min PAGE_SIZE (length - total))).ext
          (toLONGLONG (o + ((handler ext o mem tb (min PAGE_SIZE (length - total))).ret : Int)))
          (tb + (handler ext o mem tb (min PAGE_SIZE (length - total))).ret)
          ((total + (handler ext o mem tb (min PAGE_SIZE (length - total))).ret) % 4294967296)
          (handler ext o mem tb (min PAGE_SIZE (length - total))).mem
          (calls ++ [⟨o, tb, min PAGE_SIZE (length - total),
            (handler ext o mem tb (min PAGE_SIZE (length - total))).ret,
            (handler ext o mem tb (min PAGE_SIZE (length - total))).prims⟩]) := by
  simp only [DeviceRead_loop, h, if_true, hA, hP, hG, Bool.true_eq_false, if_false]

theorem chain_nil_of_zero (cs : List HandlerCall) (o : Int) (h : Chain o 0 cs) : cs = [] := by
  cases cs with
  | nil => rfl
  | cons c cs => exact absurd h.1 (by omega)

theorem loop_success {k : Kernel} {phys : Int → Nat} {mode : AcquisitionMode}
    {handler : Handler} (hs : strategyOf k mode = some handler) (hpin : PinningSucceeds k)
    (length : Nat) (hlen32 : length < 4294967296) :
    ∀ (fuel : Nat) (ext : DEVICE_EXTENSION) (o : Int) (tb total : Nat) (mem : Memory)
      (calls : List HandlerCall),
      StrategySucceeds k phys mode ext →
      (total < length →
        0 ≤ o ∧ o + ((length - total : Nat) : Int) ≤ 9223372036854775808) →
      total ≤ length → length - total ≤ fuel →
      ∃ r, DeviceRead_loop k handler length fuel ext o tb total mem calls = some r ∧
        r.status = STATUS_SUCCESS ∧ r.total_read = length ∧ r.ext.mu = false ∧
        (∀ j, j < length - total → r.mem (tb + j) = phys (o + (j : Int))) ∧
        (∀ a, a < tb ∨ tb + (length - total) ≤ a → r.mem a = mem a) ∧
        ∃ cs, r.calls = calls ++ cs ∧ Chain o (length - total) cs ∧
          ∃ t, Windows k handler length ⟨ext, o, tb, total, mem⟩ cs t ∧
            t.total_read = length := by
  have done : ∀ (fuel : Nat) (ext : DEVICE_EXTENSION) (o : Int) (tb total : Nat)
      (mem : Memory) (calls : List HandlerCall), total ≤ length → ¬ total < length →
      ∃ r, DeviceRead_loop k handler length fuel ext o tb total mem calls = some r ∧
        r.status = STATUS_SUCCESS ∧ r.total_read = length ∧ r.ext.mu = false ∧
        (∀ j, j < length - total → r.mem (tb + j) = phys (o + (j : Int))) ∧
        (∀ a, a < tb ∨ tb + (length - total) ≤ a → r.mem a = mem a) ∧
        ∃ cs, r.calls = calls ++ cs ∧ Chain o (length - total) cs ∧
          ∃ t, Windows k handler length ⟨ext, o, tb, total, mem⟩ cs t ∧
            t.total_read = length := by
    intro fuel ext o tb total mem calls hle hlt
    have htot : total = length := by omega
    refine ⟨_, DeviceRead_loop_done k handler _ fuel ext o tb _ mem calls hlt,
      rfl, htot, rfl, ?_, ?_, [], by simp [DeviceRead_end], ?_, ⟨ext, o, tb, total, mem⟩, rfl,
      htot⟩
    · intro j hj; omega
    · intro a _; rfl
    · have e : length - total = 0 := by omega
      rw [e]
      rfl
  intro fuel
  induction fuel with
  | zero =>
    intro ext o tb total mem calls _ _ hle hfuel
    exact done 0 ext o tb total mem calls hle (by omega)
  | succ fuel ih =>
    intro ext o tb total mem calls hok hdom hle hfuel
    have hPS : PAGE_SIZE = 4096 := rfl
    by_cases hlt : total < length
    · obtain ⟨ho, hend⟩ := hdom hlt
      obtain ⟨hA, hP, hG⟩ := hpin tb (min PAGE_SIZE (length - total))
      obtain ⟨hret, hin, hout, hok1, _⟩ :=
        strategy_success hs ext hok o mem tb (min PAGE_SIZE (length - total)) ho (by omega)
      have htr := to_read_of_nonneg o (min PAGE_SIZE (length - total)) ho
      have hretv : (handler ext o mem tb (min PAGE_SIZE (length - total))).ret
          = min (4096 - (o % 4096).toNat) (length - total) := by
        rw [hret, htr]; omega
      rw [← hret] at hin hout
      rw [DeviceRead_loop_step k handler length fuel ext o tb total mem calls hlt hA hP hG]
      generalize hres : handler ext o mem tb (min PAGE_SIZE (length - total)) = res at *
      have hpos : 0 < res.ret := by omega
      have hle2 : res.ret ≤ length - total := by omega
      rw [if_neg (by omega)]
      have hmod : (total + res.ret) % 4294967296 = total + res.ret :=
        Nat.mod_eq_of_lt (by omega)
      rw [hmod]
      have hll : total + res.ret < length →
          toLONGLONG (o + (res.ret : Int)) = o + (res.ret : Int) :=
        fun h => toLONGLONG_of_range _ (by omega) (by omega)
      have hadv : advance handler length ⟨ext, o, tb, total, mem⟩
          = ⟨res.ext, toLONGLONG (o + (res.ret : Int)), tb + res.ret, total + res.ret,
              res.mem⟩ := by
        simp only [advance, invoke, windowSize, hres, hmod]
      have hrec : recordOf handler length ⟨ext, o, tb, total, mem⟩
          = ⟨o, tb, min PAGE_SIZE (length - total), res.ret, res.prims⟩ := by
        simp only [recordOf, invoke, windowSize, hres]
      obtain ⟨r, hr, hst, htot, hmu, hmem, hfr, cs, hcs, hch, t, hwin, htt⟩ :=
        ih res.ext (toLONGLONG (o + (res.ret : Int))) (tb + res.ret) (total + res.ret) res.mem
          (calls ++ [⟨o, tb, min PAGE_SIZE (length - total), res.ret, res.prims⟩])
          hok1 (fun h => by rw [hll h]; omega) (by omega) (by omega)
      have hch2 : Chain (o + (res.ret : Int)) (length - total - res.ret) cs := by
        have e3 : length - (total + res.ret) = length - total - res.ret := by omega
        rw [e3] at hch
        by_cases hfin : total + res.ret < length
        · rw [hll hfin] at hch
          exact hch
        · have e4 : length - total - res.ret = 0 := by omega
          rw [e4] at hch ⊢
          rw [chain_nil_of_zero cs _ hch]
          rfl
      refine ⟨r, hr, hst, htot, hmu, ?_, ?_,
        ⟨o, tb, min PAGE_SIZE (length - total), res.ret, res.prims⟩ :: cs, by simp [hcs], ?_, ?_⟩
      · intro j hj
        by_cases hjr : j < res.ret
        · rw [hfr (tb + j) (Or.inl (by omega))]
          exact hin j hjr
        · have h1 := hmem (j - res.ret) (by omega)
          have e1 : tb + res.ret + (j - res.ret) = tb + j := by omega
          have e2 : o + (res.ret : Int) + ((j - res.ret : Nat) : Int) = o + (j : Int) := by omega
          rw [hll (by omega), e1, e2] at h1
          exact h1
      · intro a ha
        rw [hfr a (by omega)]
        exact hout a (by omega)
      · exact ⟨by omega, rfl, hretv, hch2⟩
      · refine ⟨t, ⟨hlt, ⟨hA, hP, hG⟩, hrec.symm, hpos, ?_, ?_⟩, htt⟩
        · show res.ret ≤ min PAGE_SIZE (length - total)
          omega
        · rw [hadv]
          exact hwin
    · exact done (fuel + 1) ext o tb total mem calls hle hlt

/-! ## The windows of a successful run -/

theorem chain_length (cs : List HandlerCall) :
    ∀ (o : Int) (n : Nat), 0 ≤ o → 0 < n → Chain o n cs →
      (cs.length : Int) = (o + (n : Int) - 1) / 4096 - o / 4096 + 1 := by
  induction cs with
  | nil => intro o n _ hn h; simp only [Chain] at h; omega
  | cons c cs ih =>
    intro o n ho hn h
    obtain ⟨_, _, hret, hrest⟩ := h
    by_cases hlast : n - c.ret = 0
    · rw [hlast] at hrest
      rw [chain_nil_of_zero cs _ hrest]
      simp only [List.length_singleton, Nat.cast_one]
      omega
    · have := ih (o + (c.ret : Int)) (n - c.ret) (by omega) (by omega) hrest
      simp only [List.length_cons, Nat.cast_add, Nat.cast_one, this]
      omega

theorem chain_index (cs : List HandlerCall) :
    ∀ (o : Int) (n : Nat), 0 ≤ o → Chain o n cs →
      ∀ (i : Nat) (hi : i < cs.length),
        0 < (cs[i]).ret ∧ (cs[i]).ret ≤ 4096 ∧ 0 ≤ (cs[i]).offset ∧
        (cs[i]).offset / 4096 = ((cs[i]).offset + ((cs[i]).ret : Int) - 1) / 4096 ∧
        ((0 < i ∨ o % 4096 = 0) → (cs[i]).offset % 4096 = 0) ∧
        (i + 1 < cs.length → ((cs[i]).offset + ((cs[i]).ret : Int)) % 4096 = 0) := by
  induction cs with
  | nil => intro o n _ _ i hi; simp at hi
  | cons c cs ih =>
    intro o n ho h i hi
    obtain ⟨hn, hoff, hret, hrest⟩ := h
    cases i with
    | zero =>
      simp only [List.getElem_cons_zero, List.length_cons]
      refine ⟨by omega, by omega, by omega, by omega, ?_, ?_⟩
      · intro h0
        rcases h0 with h0 | h0
        · omega
        · omega
      · intro hlen
        have hne : n - c.ret ≠ 0 := by
          intro hz
          rw [hz] at hrest
          rw [chain_nil_of_zero cs _ hrest] at hlen
          simp at hlen
        omega
    | succ j =>
      simp only [List.getElem_cons_succ, List.length_cons]
      have hj : j < cs.length := by simpa using hi
      have hne : n - c.ret ≠ 0 := by
        intro hz
        rw [hz] at hrest
        rw [chain_nil_of_zero cs _ hrest] at hj
        simp at hj
      obtain ⟨h1, h2, h3, h4, h5, h6⟩ := ih (o + (c.ret : Int)) (n - c.ret) (by omega) hrest j hj
      refine ⟨h1, h2, h3, h4, ?_, ?_⟩
      · intro _
        exact h5 (Or.inr (by omega))
      · intro hlen
        exact h6 (by omega)

/-! ## The loop of `DeviceRead` for any bounded handler -/

theorem loop_trace {k : Kernel} {handler : Handler} (hb : Bounded handler)
    (length : Nat) (hlen32 : length < 4294967296) :
    ∀ (fuel : Nat) (ext : DEVICE_EXTENSION) (o : Int) (tb total : Nat) (mem : Memory)
      (calls : List HandlerCall),
      total ≤ length → length - total ≤ fuel →
      ∃ r, DeviceRead_loop k handler length fuel ext o tb total mem calls = some r ∧
        ∃ cs, r.calls = calls ++ cs ∧
          r.total_read = total + (cs.map (fun c => c.ret)).sum ∧
          r.total_read ≤ length ∧
          Steps length o total cs ∧
          ∀ (i : Nat) (hi : i < cs.length), (cs[i]).ret = 0 →
            i + 1 = cs.length ∧ r.status = STATUS_IO_DEVICE_ERROR := by
  intro fuel
  induction fuel with
  | zero =>
    intro ext o tb total mem calls hle hfuel
    refine ⟨_, DeviceRead_loop_done k handler _ 0 ext o tb _ mem calls (by omega),
      [], by simp [DeviceRead_end], by simp [DeviceRead_end], by simpa [DeviceRead_end] using hle,
      trivial, ?_⟩
    intro i hi; simp at hi
  | succ fuel ih =>
    intro ext o tb total mem calls hle hfuel
    have hPS : PAGE_SIZE = 4096 := rfl
    have stop : ∀ (st : NTSTATUS) (e : DEVICE_EXTENSION),
        ∃ cs, (ReadResult.mk st total mem e calls).calls = calls ++ cs ∧
          (ReadResult.mk st total mem e calls).total_read
            = total + (cs.map (fun c => c.ret)).sum ∧
          (ReadResult.mk st total mem e calls).total_read ≤ length ∧
          Steps length o total cs ∧
          ∀ (i : Nat) (hi : i < cs.length), (cs[i]).ret = 0 →
            i + 1 = cs.length ∧ (ReadResult.mk st total mem e calls).status
              = STATUS_IO_DEVICE_ERROR := by
      intro st e
      refine ⟨[], by simp, by simp, hle, trivial, ?_⟩
      intro i hi; simp at hi
    by_cases hlt : total < length
    · cases hA : k.IoAllocateMdl tb (min PAGE_SIZE (length - total)) with
      | false =>
        refine ⟨_, ?_, stop STATUS_INSUFFICIENT_RESOURCES ext⟩
        simp only [DeviceRead_loop, hlt, if_true, hA]
      | true =>
        cases hP : k.MmProbeAndLockPages tb (min PAGE_SIZE (length - total)) with
        | some code =>
          refine ⟨_, ?_, stop code { ext with mu := false }⟩
          simp only [DeviceRead_loop, hlt, if_true, hA, hP, Bool.true_eq_false, if_false,
            DeviceRead_end]
        | none =>
          cases hG : k.MmGetSystemAddressForMdlSafe tb (min PAGE_SIZE (length - total)) with
          | false =>
            refine ⟨_, ?_, stop STATUS_INSUFFICIENT_RESOURCES { ext with mu := false }⟩
            simp only [DeviceRead_loop, hlt, if_true, hA, hP, hG, Bool.true_eq_false, if_false,
              DeviceRead_end]
          | true =>
            rw [DeviceRead_loop_step k handler length fuel ext o tb total mem calls hlt hA hP hG]
            have hbound := hb ext o mem tb (min PAGE_SIZE (length - total))
            generalize handler ext o mem tb (min PAGE_SIZE (length - total)) = res at *
            by_cases hz : res.ret = 0
            · rw [if_pos hz]
              refine ⟨_, rfl, [⟨o, tb, min PAGE_SIZE (length - total), res.ret, res.prims⟩],
                rfl, by simp [DeviceRead_end, hz], by simpa [DeviceRead_end] using hle,
                ⟨hlt, rfl, rfl, hbound, trivial⟩, ?_⟩
              intro i hi _
              simp only [List.length_singleton] at hi ⊢
              exact ⟨by omega, rfl⟩
            · rw [if_neg hz]
              have hmod : (total + res.ret) % 4294967296 = total + res.ret :=
                Nat.mod_eq_of_lt (by omega)
              rw [hmod]
              obtain ⟨r, hr, cs, hcs, htot, htl, hsteps, hzero⟩ :=
                ih res.ext (toLONGLONG (o + (res.ret : Int))) (tb + res.ret) (total + res.ret)
                  res.mem (calls ++ [⟨o, tb, min PAGE_SIZE (length - total), res.ret, res.prims⟩])
                  (by omega) (by omega)
              refine ⟨r, hr, ⟨o, tb, min PAGE_SIZE (length - total), res.ret, res.prims⟩ :: cs,
                by simp [hcs], ?_, htl, ⟨hlt, rfl, rfl, hbound, hsteps⟩, ?_⟩
              · rw [htot]; simp only [List.map_cons, List.sum_cons]; omega
              · intro i hi h0
                cases i with
                | zero => exact absurd h0 hz
                | succ j =>
                  simp only [List.getElem_cons_succ] at h0
                  obtain ⟨h1, h2⟩ := hzero j (by simpa using hi) h0
                  exact ⟨by simp only [List.length_cons]; omega, h2⟩
    · refine ⟨_, DeviceRead_loop_done k handler _ _ ext o tb _ mem calls hlt,
        stop STATUS_SUCCESS { ext with mu := false }⟩

theorem to_read_le_count (o : Int) (count : Nat) : to_read o count ≤ count := by
  unfold to_read
  exact Nat.min_le_right _ _

theorem strategy_ret (k : Kernel) (mode : AcquisitionMode) (handler : Handler)
    (hs : strategyOf k mode = some handler) (ext : DEVICE_EXTENSION) (o : Int)
    (mem : Memory) (buf count : Nat) :
    (handler ext o mem buf count).ret = 0 ∨
      (handler ext o mem buf count).ret = to_read o count := by
  cases mode with
  | Physical =>
    simp only [strategyOf, Option.some.injEq] at hs
    subst hs
    right
    simp only [PhysicalMemoryPartialRead]
    split
    · rfl
    · split <;> rfl
  | IoSpace =>
    simp only [strategyOf, Option.some.injEq] at hs
    subst hs
    simp only [MapIOPagePartialRead]
    split
    · split
      · left; rfl
      · right; rfl
    · left; rfl
  | Pte =>
    simp only [strategyOf, Option.some.injEq] at hs
    subst hs
    simp only [PTEMmapPartialRead]
    split
    · left; rfl
    · split
      · left; rfl
      · split
        · left; rfl
        · right; rfl
  | Unsupported => simp [strategyOf] at hs

theorem strategy_bounded (k : Kernel) (mode : AcquisitionMode) (handler : Handler)
    (hs : strategyOf k mode = some handler) : Bounded handler := by
  intro ext o mem buf count
  rcases strategy_ret k mode handler hs ext o mem buf count with h | h
  · omega
  · rw [h]; exact to_read_le_count o count

/-! ## The loop of `DeviceRead` along the windows of a request -/

theorem loop_windows (k : Kernel) (handler : Handler) (length : Nat)
    (hlen32 : length < 4294967296) :
    ∀ (pre : List HandlerCall) (s t : LoopState) (calls : List HandlerCall) (fuel : Nat),
      Windows k handler length s pre t → t.total_read < length → Pinned k length t →
      (invoke handler length t).ret = 0 → length - s.total_read ≤ fuel →
      DeviceRead_loop k handler length fuel s.ext s.offset s.toxic_buffer s.total_read
          s.mem calls
        = some (DeviceRead_end STATUS_IO_DEVICE_ERROR t.total_read
            (invoke handler length t).mem (invoke handler length t).ext
            (calls ++ pre ++ [recordOf handler length t])) ∧
      t.total_read = s.total_read + (pre.map (fun c => c.ret)).sum := by
  intro pre
  induction pre with
  | nil =>
    intro s t calls fuel hw hlt hpin hzero hfuel
    simp only [Windows] at hw
    subst hw
    obtain ⟨hA, hP, hG⟩ := hpin
    cases fuel with
    | zero => omega
    | succ fuel =>
      refine ⟨?_, by simp⟩
      rw [DeviceRead_loop_step k handler length fuel t.ext t.offset t.toxic_buffer
        t.total_read t.mem calls hlt hA hP hG]
      have hz : (handler t.ext t.offset t.mem t.toxic_buffer
          (min PAGE_SIZE (length - t.total_read))).ret = 0 := hzero
      rw [if_pos hz]
      simp only [List.append_nil]
      rfl
  | cons c cs ih =>
    intro s t calls fuel hw hlt hpin hzero hfuel
    obtain ⟨hslt, ⟨hA, hP, hG⟩, hc, hpos, hle, hrest⟩ := hw
    have hPS : PAGE_SIZE = 4096 := rfl
    have hcret : c.ret = (invoke handler length s).ret := by rw [hc]; rfl
    have hccount : c.count = min PAGE_SIZE (length - s.total_read) := by rw [hc]; rfl
    have hmod : (s.total_read + (invoke handler length s).ret) % 4294967296
        = s.total_read + (invoke handler length s).ret :=
      Nat.mod_eq_of_lt (by omega)
    have hadv : (advance handler length s).total_read
        = s.total_read + (invoke handler length s).ret := hmod
    cases fuel with
    | zero => omega
    | succ fuel =>
      obtain ⟨h1, h2⟩ := ih (advance handler length s) t (calls ++ [c]) fuel hrest hlt
        ⟨hpin.1, hpin.2.1, hpin.2.2⟩ hzero (by omega)
      constructor
      · rw [DeviceRead_loop_step k handler length fuel s.ext s.offset s.toxic_buffer
          s.total_read s.mem calls hslt hA hP hG]
        have hnz : ¬ (handler s.ext s.offset s.mem s.toxic_buffer
            (min PAGE_SIZE (length - s.total_read))).ret = 0 := by
          intro h0
          have : (invoke handler length s).ret = 0 := h0
          omega
        rw [if_neg hnz]
        have hrec : (⟨s.offset, s.toxic_buffer, min PAGE_SIZE (length - s.total_read),
            (handler s.ext s.offset s.mem s.toxic_buffer
              (min PAGE_SIZE (length - s.total_read))).ret,
            (handler s.ext s.offset s.mem s.toxic_buffer
              (min PAGE_SIZE (length - s.total_read))).prims⟩ : HandlerCall) = c := hc.symm
        rw [hrec]
        have h3 : calls ++ c :: cs ++ [recordOf handler length t]
            = calls ++ [c] ++ cs ++ [recordOf handler length t] := by simp
        rw [h3, ← h1]
        rfl
      · rw [h2, hadv, List.map_cons, List.sum_cons, hcret]
        omega

theorem StrategySucceeds_acquire (k : Kernel) (phys : Int → Nat) (mode : AcquisitionMode)
    (ext : DEVICE_EXTENSION) (h : StrategySucceeds k phys mode ext) :
    StrategySucceeds k phys mode { ext with mu := true } := by
  cases mode <;> exact h

theorem simKernel_pinning (phys : Int → Nat) : PinningSucceeds (simKernel phys) :=
  fun _ _ => ⟨rfl, rfl, rfl⟩

theorem simKernel_succeeds (phys : Int → Nat) (mode : AcquisitionMode)
    (h : mode ≠ AcquisitionMode.Unsupported) :
    StrategySucceeds (simKernel phys) phys mode (simExtension phys mode) := by
  cases mode with
  | Physical =>
    exact ⟨Or.inr (by simp [simKernel]), fun _ o _ => ⟨_, rfl, fun _ _ => rfl⟩⟩
  | IoSpace => exact fun b => ⟨_, rfl, rfl, fun _ _ => rfl⟩
  | Pte => exact ⟨_, rfl, fun b => ⟨_, rfl, rfl, fun _ _ => rfl⟩⟩
  | Unsupported => exact absurd rfl h

/-! ## The claims -/

/-- Claim C1, as stated, fails for an offset that is negative in the signed
64-bit field.  Over a kernel whose strategy always succeeds (each mapped page
shows the bytes of the simulated memory) and whose pinning always succeeds,
the one-byte request at `QuadPart = -1` returns `STATUS_SUCCESS` with
`*total_read = 1`, but the byte delivered is the filler 204 found beyond the
end of the mapped page, not the byte 0 of the simulated memory at offset -1:
`page_offset` is `2^32 - 1` there. -/
theorem DeviceRead_negative_offset_copies_wrong_byte :
    StrategySucceeds (boundedKernel pageIndexMemory) pageIndexMemory AcquisitionMode.IoSpace
      (simExtension pageIndexMemory AcquisitionMode.IoSpace) ∧
    PinningSucceeds (boundedKernel pageIndexMemory) ∧
    (DeviceRead (boundedKernel pageIndexMemory) 1
        (simExtension pageIndexMemory AcquisitionMode.IoSpace) (-1) (fun _ => 0) 65536 1
        (MapIOPagePartialRead (boundedKernel pageIndexMemory))).map
      (fun r => (r.status, r.total_read, r.calls.map windowOf))
      = some (STATUS_SUCCESS, 1, [(-4294967296, 4294967295, 1)]) ∧
    (DeviceRead (boundedKernel pageIndexMemory) 1
        (simExtension pageIndexMemory AcquisitionMode.IoSpace) (-1) (fun _ => 0) 65536 1
        (MapIOPagePartialRead (boundedKernel pageIndexMemory))).map
      (fun r => r.mem (65536 + 0)) = some 204 ∧
    pageIndexMemory (-1 + ((0 : Nat) : Int)) = 0 :=
  ⟨fun _ => ⟨_, rfl, rfl, fun i hi => by simp only [hi, if_true]⟩,
    fun _ _ => ⟨rfl, rfl, rfl⟩, by decide, by decide, by decide⟩

/-- Claim C1, amended.  When the installed strategy always succeeds over the simulated
physical memory `phys` and every pinning step succeeds, `DeviceRead` returns
(given fuel for `length` iterations) with `*total_read = length` and
`STATUS_SUCCESS`, and the first `length` bytes of the destination are the bytes
of `phys` at `[offset, offset + length)`; for a request inside one page these
are the bytes of that page from `offset mod PAGE_SIZE` on.  This holds for
every request whose byte range lies in `[0, 2^63)`, the non-negative values of
the signed 64-bit offset field. -/
theorem DeviceRead_success_copies_physical_memory
    (k : Kernel) (phys : Int → Nat) (mode : AcquisitionMode) (handler : Handler)
    (ext : DEVICE_EXTENSION) (offset : Int) (length : Nat) (mem : Memory)
    (toxic_buffer fuel : Nat)
    (hs : strategyOf k mode = some handler)
    (hok : StrategySucceeds k phys mode ext) (hpin : PinningSucceeds k)
    (hlen32 : length < 4294967296)
    (hoff : 0 ≤ offset) (hend : offset + (length : Int) ≤ 9223372036854775808)
    (hfuel : length ≤ fuel) :
    ∃ r, DeviceRead k fuel ext offset mem toxic_buffer length handler = some r ∧
      r.total_read = length ∧ r.status = STATUS_SUCCESS ∧
      (∀ j, j < length → r.mem (toxic_buffer + j) = phys (offset + (j : Int))) ∧
      (offset % (PAGE_SIZE : Int) + (length : Int) ≤ (PAGE_SIZE : Int) →
        ∀ j, j < length → r.mem (toxic_buffer + j)
          = phys (offset - offset % (PAGE_SIZE : Int) + (offset % (PAGE_SIZE : Int) + (j : Int)))) := by
  obtain ⟨r, hr, hst, htot, _, hmem, _, _⟩ :=
    loop_success hs hpin length hlen32 fuel { ext with mu := true } offset toxic_buffer 0 mem []
      (StrategySucceeds_acquire k phys mode ext hok) (fun _ => ⟨hoff, by simpa using hend⟩)
      (Nat.zero_le _) (by simpa using hfuel)
  refine ⟨r, hr, htot, hst, ?_, ?_⟩
  · intro j hj
    exact hmem j (by simpa using hj)
  · intro _ j hj
    rw [hmem j (by simpa using hj)]
    congr 1
    omega

/-- Witness of claim C1 (amended): the request `offset = 4096 + 10`, `length = 4096` over
the page-index memory, in the I/O-space mode. -/
theorem DeviceRead_success_copies_physical_memory_witness :
    ((0 : Int) ≤ 4106 ∧ 4096 ≤ 4096) ∧
    ∃ r, DeviceRead (simKernel pageIndexMemory) 4096
        (simExtension pageIndexMemory AcquisitionMode.IoSpace) 4106 (fun _ => 0) 65536 4096
        (MapIOPagePartialRead (simKernel pageIndexMemory)) = some r ∧
      r.total_read = 4096 ∧ r.status = STATUS_SUCCESS ∧
      (∀ j, j < 4096 → r.mem (65536 + j) = pageIndexMemory (4106 + (j : Int))) ∧
      ((4106 : Int) % (PAGE_SIZE : Int) + ((4096 : Nat) : Int) ≤ (PAGE_SIZE : Int) →
        ∀ j, j < 4096 → r.mem (65536 + j)
          = pageIndexMemory (4106 - 4106 % (PAGE_SIZE : Int) + (4106 % (PAGE_SIZE : Int) + (j : Int)))) :=
  ⟨⟨by decide, by decide⟩,
    DeviceRead_success_copies_physical_memory (simKernel pageIndexMemory) pageIndexMemory
      AcquisitionMode.IoSpace (MapIOPagePartialRead (simKernel pageIndexMemory))
      (simExtension pageIndexMemory AcquisitionMode.IoSpace) 4106 4096 (fun _ => 0) 65536 4096
      rfl (simKernel_succeeds pageIndexMemory AcquisitionMode.IoSpace (by decide))
      (simKernel_pinning pageIndexMemory) (by decide) (by decide) (by decide) (by decide)⟩

/-- Claim C2.  Let the handler succeed on the first windows of a request, as
recorded in `pre`, and let `s` hold the loop variables after them; if bytes
remain, the next window is pinned and the handler, invoked on it, returns 0,
then `DeviceRead` returns (given fuel for `length` iterations) with
`STATUS_IO_DEVICE_ERROR`, `*total_read` is the sum of the bytes returned on the
windows of `pre`, the handler invocations made are exactly those of `pre`
followed by the failing one and no other, and the memory is as the failing
invocation left it; when the very first window fails, `*total_read = 0`. -/
theorem DeviceRead_zero_window_stops_read
    (k : Kernel) (handler : Handler) (ext : DEVICE_EXTENSION) (offset : Int) (length : Nat)
    (mem : Memory) (toxic_buffer fuel : Nat) (pre : List HandlerCall) (s : LoopState)
    (hpre : Windows k handler length (loopEntry ext offset mem toxic_buffer) pre s)
    (hnext : s.total_read < length) (hpin : Pinned k length s)
    (hzero : (invoke handler length s).ret = 0)
    (hlen32 : length < 4294967296) (hfuel : length ≤ fuel) :
    ∃ r, DeviceRead k fuel ext offset mem toxic_buffer length handler = some r ∧
      r.status = STATUS_IO_DEVICE_ERROR ∧
      r.total_read = (pre.map (fun c => c.ret)).sum ∧
      r.calls = pre ++ [recordOf handler length s] ∧
      r.calls.length = pre.length + 1 ∧
      r.mem = (invoke handler length s).mem ∧
      (pre = [] → r.total_read = 0) := by
  obtain ⟨h1, h2⟩ := loop_windows k handler length hlen32 pre
    (loopEntry ext offset mem toxic_buffer) s [] fuel hpre hnext hpin hzero
    (by simpa [loopEntry] using hfuel)
  have htot : s.total_read = (pre.map (fun c => c.ret)).sum := by
    rw [h2]
    simp [loopEntry]
  refine ⟨_, h1, rfl, htot, by simp [DeviceRead_end], by simp [DeviceRead_end], rfl, ?_⟩
  intro hnil
  show s.total_read = 0
  rw [htot, hnil]
  rfl

/-- Witness of claim C2: the I/O-space strategy over a memory whose page at
8192 cannot be mapped, for the request `offset = 4096 + 10`, `length = 4096`:
the first window returns 4086 bytes, the second fails, and 4086 bytes are
reported with `STATUS_IO_DEVICE_ERROR` after exactly two invocations. -/
theorem DeviceRead_zero_window_stops_read_witness :
    (Windows (holeKernel pageIndexMemory 8192)
        (MapIOPagePartialRead (holeKernel pageIndexMemory 8192)) 4096
        (loopEntry (simExtension pageIndexMemory AcquisitionMode.IoSpace) 4106 (fun _ => 0) 65536)
        [⟨4106, 65536, 4096, 4086, [Prim.MmMapIoSpace 4096, Prim.MmUnmapIoSpace]⟩]
        (advance (MapIOPagePartialRead (holeKernel pageIndexMemory 8192)) 4096
          (loopEntry (simExtension pageIndexMemory AcquisitionMode.IoSpace) 4106
            (fun _ => 0) 65536)) ∧
      (invoke (MapIOPagePartialRead (holeKernel pageIndexMemory 8192)) 4096
        (advance (MapIOPagePartialRead (holeKernel pageIndexMemory 8192)) 4096
          (loopEntry (simExtension pageIndexMemory AcquisitionMode.IoSpace) 4106
            (fun _ => 0) 65536))).ret = 0) ∧
    (∃ r, DeviceRead (holeKernel pageIndexMemory 8192) 4096
        (simExtension pageIndexMemory AcquisitionMode.IoSpace) 4106 (fun _ => 0) 65536 4096
        (MapIOPagePartialRead (holeKernel pageIndexMemory 8192)) = some r ∧
      r.status = STATUS_IO_DEVICE_ERROR ∧
      r.total_read
        = (([⟨4106, 65536, 4096, 4086, [Prim.MmMapIoSpace 4096, Prim.MmUnmapIoSpace]⟩] :
            List HandlerCall).map (fun c => c.ret)).sum ∧
      r.calls = [⟨4106, 65536, 4096, 4086, [Prim.MmMapIoSpace 4096, Prim.MmUnmapIoSpace]⟩] ++
        [recordOf (MapIOPagePartialRead (holeKernel pageIndexMemory 8192)) 4096
          (advance (MapIOPagePartialRead (holeKernel pageIndexMemory 8192)) 4096
            (loopEntry (simExtension pageIndexMemory AcquisitionMode.IoSpace) 4106
              (fun _ => 0) 65536))] ∧
      r.calls.length
        = ([⟨4106, 65536, 4096, 4086, [Prim.MmMapIoSpace 4096, Prim.MmUnmapIoSpace]⟩] :
            List HandlerCall).length + 1 ∧
      r.mem = (invoke (MapIOPagePartialRead (holeKernel pageIndexMemory 8192)) 4096
        (advance (MapIOPagePartialRead (holeKernel pageIndexMemory 8192)) 4096
          (loopEntry (simExtension pageIndexMemory AcquisitionMode.IoSpace) 4106
            (fun _ => 0) 65536))).mem ∧
      (([⟨4106, 65536, 4096, 4086, [Prim.MmMapIoSpace 4096, Prim.MmUnmapIoSpace]⟩] :
          List HandlerCall) = [] → r.total_read = 0)) ∧
    (DeviceRead (holeKernel pageIndexMemory 8192) 4096
        (simExtension pageIndexMemory AcquisitionMode.IoSpace) 4106 (fun _ => 0) 65536 4096
        (MapIOPagePartialRead (holeKernel pageIndexMemory 8192))).map
      (fun r => (r.status, r.total_read, r.calls.map (fun c => (c.offset, c.count, c.ret))))
      = some (STATUS_IO_DEVICE_ERROR, 4086, [(4106, 4096, 4086), (8192, 10, 0)]) :=
  ⟨⟨⟨by decide, ⟨rfl, rfl, rfl⟩, by decide, by decide, by decide, rfl⟩, by decide⟩,
    DeviceRead_zero_window_stops_read (holeKernel pageIndexMemory 8192)
      (MapIOPagePartialRead (holeKernel pageIndexMemory 8192))
      (simExtension pageIndexMemory AcquisitionMode.IoSpace) 4106 4096 (fun _ => 0) 65536 4096
      [⟨4106, 65536, 4096, 4086, [Prim.MmMapIoSpace 4096, Prim.MmUnmapIoSpace]⟩]
      (advance (MapIOPagePartialRead (holeKernel pageIndexMemory 8192)) 4096
        (loopEntry (simExtension pageIndexMemory AcquisitionMode.IoSpace) 4106 (fun _ => 0) 65536))
      ⟨by decide, ⟨rfl, rfl, rfl⟩, by decide, by decide, by decide, rfl⟩
      (by decide) ⟨rfl, rfl, rfl⟩ (by decide) (by decide) (by decide),
    by decide⟩

theorem windows_records {k : Kernel} {mode : AcquisitionMode} {handler : Handler}
    (hs : strategyOf k mode = some handler) (length : Nat) (cs : List HandlerCall) :
    ∀ (s t : LoopState), Windows k handler length s cs t →
      ∀ c, c ∈ cs → c.ret = to_read c.offset c.count ∧ c.count ≤ PAGE_SIZE := by
  induction cs with
  | nil => intro s t _ c hc; simp at hc
  | cons d ds ih =>
    intro s t hw c hc
    obtain ⟨_, _, hd, hpos, _, hrest⟩ := hw
    rcases List.mem_cons.mp hc with h | h
    · subst h
      have hret : c.ret = (handler s.ext s.offset s.mem s.toxic_buffer
          (windowSize length s)).ret := by rw [hd]; rfl
      have hoff : c.offset = s.offset := by rw [hd]; rfl
      have hcount : c.count = windowSize length s := by rw [hd]; rfl
      refine ⟨?_, ?_⟩
      · rcases strategy_ret k mode handler hs s.ext s.offset s.mem s.toxic_buffer
          (windowSize length s) with h0 | h1
        · omega
        · rw [hret, h1, hoff, hcount]
      · rw [hcount]
        exact Nat.min_le_left _ _
    · exact ih _ t hrest c h

/-- Claim C4, as stated, fails for an offset that is negative in the signed
64-bit field.  Over the simulated kernel, in which the strategy and the
pinning always succeed, the request of 4096 bytes at `QuadPart = -2^63 + 10`
touches two pages but is served by a single invocation that returns 4096
bytes and whose byte range crosses a page boundary. -/
theorem DeviceRead_negative_offset_window_crosses_page :
    StrategySucceeds (simKernel pageIndexMemory) pageIndexMemory AcquisitionMode.IoSpace
      (simExtension pageIndexMemory AcquisitionMode.IoSpace) ∧
    PinningSucceeds (simKernel pageIndexMemory) ∧
    (DeviceRead (simKernel pageIndexMemory) 4096
        (simExtension pageIndexMemory AcquisitionMode.IoSpace) (-9223372036854775798)
        (fun _ => 0) 65536 4096 (MapIOPagePartialRead (simKernel pageIndexMemory))).map
      (fun r => (r.status, r.total_read, r.calls.map (fun c => (c.offset, c.count, c.ret))))
      = some (STATUS_SUCCESS, 4096, [(-9223372036854775798, 4096, 4096)]) ∧
    pagesTouched (-9223372036854775798) 4096 = 2 ∧
    (-9223372036854775798 : Int) / (PAGE_SIZE : Int)
      ≠ (-9223372036854775798 + ((4096 : Nat) : Int) - 1) / (PAGE_SIZE : Int) :=
  ⟨fun _ => ⟨_, rfl, rfl, fun _ _ => rfl⟩, fun _ _ => ⟨rfl, rfl, rfl⟩,
    by decide, by decide, by decide⟩

/-- Claim C4, amended.  For a request of `length > 0` bytes whose byte range
lies in `[0, 2^63)`, the non-negative values of the signed 64-bit offset
field, and a strategy that always succeeds, `DeviceRead` returns (given fuel
for `length` iterations) after exactly as many handler invocations as the byte
range touches pages.  The invocations recorded are the handler's own
successive invocations on the windows of the request, each returning the
`to_read` bytes the strategy computes for a count of at most `PAGE_SIZE`; each
copies between 1 and `PAGE_SIZE` bytes, its byte range lies inside one page
(it ends within the mapped page), every invocation but the first starts on a
page boundary and every invocation but the last ends on one. -/
theorem DeviceRead_windows_page_aligned
    (k : Kernel) (phys : Int → Nat) (mode : AcquisitionMode) (handler : Handler)
    (ext : DEVICE_EXTENSION) (offset : Int) (length : Nat) (mem : Memory)
    (toxic_buffer fuel : Nat)
    (hs : strategyOf k mode = some handler)
    (hok : StrategySucceeds k phys mode ext) (hpin : PinningSucceeds k)
    (hlen : 0 < length) (hlen32 : length < 4294967296)
    (hoff : 0 ≤ offset) (hend : offset + (length : Int) ≤ 9223372036854775808)
    (hfuel : length ≤ fuel) :
    ∃ r, DeviceRead k fuel ext offset mem toxic_buffer length handler = some r ∧
      (r.calls.length : Int) = pagesTouched offset length ∧
      (∃ t, Windows k handler length (loopEntry ext offset mem toxic_buffer) r.calls t ∧
        t.total_read = length) ∧
      ∀ (i : Nat) (hi : i < r.calls.length),
        0 < (r.calls[i]).ret ∧ (r.calls[i]).ret ≤ PAGE_SIZE ∧
        (r.calls[i]).offset / (PAGE_SIZE : Int)
          = ((r.calls[i]).offset + ((r.calls[i]).ret : Int) - 1) / (PAGE_SIZE : Int) ∧
        (0 < i → (r.calls[i]).offset % (PAGE_SIZE : Int) = 0) ∧
        (i + 1 < r.calls.length →
          ((r.calls[i]).offset + ((r.calls[i]).ret : Int)) % (PAGE_SIZE : Int) = 0) ∧
        (r.calls[i]).count ≤ PAGE_SIZE ∧
        (r.calls[i]).ret = to_read (r.calls[i]).offset (r.calls[i]).count ∧
        page_offset (r.calls[i]).offset + (r.calls[i]).ret ≤ PAGE_SIZE := by
  obtain ⟨r, hr, _, _, _, _, _, cs, hcs, hch, t, hwin, htt⟩ :=
    loop_success hs hpin length hlen32 fuel { ext with mu := true } offset toxic_buffer 0 mem []
      (StrategySucceeds_acquire k phys mode ext hok) (fun _ => ⟨hoff, by simpa using hend⟩)
      (Nat.zero_le _) (by simpa using hfuel)
  simp only [List.nil_append, Nat.sub_zero] at hcs hch
  subst hcs
  refine ⟨r, hr, ?_, ⟨t, hwin, htt⟩, ?_⟩
  · rw [chain_length r.calls offset length hoff hlen hch]
    simp [pagesTouched, PAGE_SIZE]
  · intro i hi
    obtain ⟨h1, h2, h3, h4, h5, h6⟩ := chain_index r.calls offset length hoff hch i hi
    obtain ⟨h7, h8⟩ := windows_records hs length r.calls _ t hwin (r.calls[i])
      (List.getElem_mem hi)
    have h9 := page_offset_of_nonneg (r.calls[i]).offset h3
    simp only [PAGE_SIZE, Nat.cast_ofNat] at h8 ⊢
    exact ⟨h1, h2, h4, fun h => h5 (Or.inl h), h6, h8, h7, by omega⟩

/-- Witness of claim C4 (amended): the request `offset = 4096 + 10`,
`length = 4096` is served by exactly the two windows `(4096, 10, 4086)` and
`(8192, 0, 10)`. -/
theorem DeviceRead_windows_page_aligned_witness :
    (0 < 4096 ∧ (0 : Int) ≤ 4106 ∧ pagesTouched 4106 4096 = 2) ∧
    (∃ r, DeviceRead (simKernel pageIndexMemory) 4096
        (simExtension pageIndexMemory AcquisitionMode.Pte) 4106 (fun _ => 0) 65536 4096
        (PTEMmapPartialRead (simKernel pageIndexMemory)) = some r ∧
      (r.calls.length : Int) = pagesTouched 4106 4096 ∧
      (∃ t, Windows (simKernel pageIndexMemory) (PTEMmapPartialRead (simKernel pageIndexMemory))
          4096 (loopEntry (simExtension pageIndexMemory AcquisitionMode.Pte) 4106
            (fun _ => 0) 65536) r.calls t ∧
        t.total_read = 4096) ∧
      ∀ (i : Nat) (hi : i < r.calls.length),
        0 < (r.calls[i]).ret ∧ (r.calls[i]).ret ≤ PAGE_SIZE ∧
        (r.calls[i]).offset / (PAGE_SIZE : Int)
          = ((r.calls[i]).offset + ((r.calls[i]).ret : Int) - 1) / (PAGE_SIZE : Int) ∧
        (0 < i → (r.calls[i]).offset % (PAGE_SIZE : Int) = 0) ∧
        (i + 1 < r.calls.length →
          ((r.calls[i]).offset + ((r.calls[i]).ret : Int)) % (PAGE_SIZE : Int) = 0) ∧
        (r.calls[i]).count ≤ PAGE_SIZE ∧
        (r.calls[i]).ret = to_read (r.calls[i]).offset (r.calls[i]).count ∧
        page_offset (r.calls[i]).offset + (r.calls[i]).ret ≤ PAGE_SIZE) ∧
    (DeviceRead (simKernel pageIndexMemory) 4096
        (simExtension pageIndexMemory AcquisitionMode.Pte) 4106 (fun _ => 0) 65536 4096
        (PTEMmapPartialRead (simKernel pageIndexMemory))).map
      (fun r => r.calls.map windowOf) = some [(4096, 10, 4086), (8192, 0, 10)] :=
  ⟨⟨by decide, by decide, by decide⟩,
    DeviceRead_windows_page_aligned (simKernel pageIndexMemory) pageIndexMemory
      AcquisitionMode.Pte (PTEMmapPartialRead (simKernel pageIndexMemory))
      (simExtension pageIndexMemory AcquisitionMode.Pte) 4106 4096 (fun _ => 0) 65536 4096
      rfl (simKernel_succeeds pageIndexMemory AcquisitionMode.Pte (by decide))
      (simKernel_pinning pageIndexMemory) (by decide) (by decide) (by decide) (by decide)
      (by decide),
    by decide⟩

/-- Claim C3, the code's divergence.  `PhysicalMemoryPartialRead` does not
return 0 when its mapping step fails: at offset 0 with count 4096 it returns
4096 both when the view-map call fails and when the section cannot be opened,
and `DeviceRead` over it then reports `STATUS_SUCCESS` with the full length
(8192 bytes over two windows whose maps both failed), whereas the two sibling
strategies return 0 on the same request and `DeviceRead` then reports
`STATUS_IO_DEVICE_ERROR`. -/
theorem PhysicalMemoryPartialRead_reports_bytes_on_mapping_failure :
    (PhysicalMemoryPartialRead noMapKernel (noRemapExtension AcquisitionMode.Physical)
        0 (fun _ => 0) 65536 4096).ret = 4096 ∧
    (PhysicalMemoryPartialRead noSectionKernel (noRemapExtension AcquisitionMode.Physical)
        0 (fun _ => 0) 65536 4096).ret = 4096 ∧
    (DeviceRead noMapKernel 8192 (noRemapExtension AcquisitionMode.Physical) 0 (fun _ => 0)
        65536 8192 (PhysicalMemoryPartialRead noMapKernel)).map
      (fun r => (r.status, r.total_read, r.calls.map (fun c => c.ret)))
      = some (STATUS_SUCCESS, 8192, [4096, 4096]) ∧
    (MapIOPagePartialRead noMapKernel (noRemapExtension AcquisitionMode.IoSpace)
        0 (fun _ => 0) 65536 4096).ret = 0 ∧
    (PTEMmapPartialRead noMapKernel (noRemapExtension AcquisitionMode.Pte)
        0 (fun _ => 0) 65536 4096).ret = 0 ∧
    (DeviceRead noMapKernel 8192 (noRemapExtension AcquisitionMode.IoSpace) 0 (fun _ => 0)
        65536 8192 (MapIOPagePartialRead noMapKernel)).map
      (fun r => (r.status, r.total_read, r.calls.map (fun c => c.ret)))
      = some (STATUS_IO_DEVICE_ERROR, 0, [0]) := by
  decide

/-- Claim C5.  At passive level, a read request whose length is 0 or whose
destination is NULL is completed by both entry points with
`STATUS_INVALID_PARAMETER` and 0 bytes, without any handler invocation and
without touching the destination memory (`pmemFastIoRead` returns FALSE). -/
theorem read_rejects_empty_or_null_request
    (k : Kernel) (fuel : Nat) (ext : DEVICE_EXTENSION) (mem : Memory) (BufOffset : Int)
    (BufLen toxic_buffer : Nat)
    (hirql : k.KeGetCurrentIrql = PASSIVE_LEVEL) (hbad : BufLen = 0 ∨ toxic_buffer = 0) :
    (∃ r, PmemRead k fuel ext mem BufOffset BufLen toxic_buffer = some r ∧
      r.Status = STATUS_INVALID_PARAMETER ∧ r.ret = STATUS_INVALID_PARAMETER ∧
      r.Information = 0 ∧ r.calls = [] ∧ r.mem = mem) ∧
    (∃ r, pmemFastIoRead k fuel ext mem BufOffset BufLen toxic_buffer = some r ∧
      r.Status = STATUS_INVALID_PARAMETER ∧ r.ret = false ∧
      r.Information = 0 ∧ r.calls = [] ∧ r.mem = mem) := by
  by_cases hb : toxic_buffer = 0
  · constructor
    · exact ⟨PmemRead_exit STATUS_INVALID_PARAMETER mem ext,
        by simp only [PmemRead, hirql, ne_eq, not_true_eq_false, if_false, hb, if_true],
        rfl, rfl, rfl, rfl, rfl⟩
    · exact ⟨bail_out STATUS_INVALID_PARAMETER mem ext,
        by simp only [pmemFastIoRead, hirql, ne_eq, not_true_eq_false, if_false, hb, if_true],
        rfl, rfl, rfl, rfl, rfl⟩
  · have hl : BufLen = 0 := by
      rcases hbad with h | h
      · exact h
      · exact absurd h hb
    constructor
    · exact ⟨PmemRead_exit STATUS_INVALID_PARAMETER mem ext,
        by simp only [PmemRead, hirql, ne_eq, not_true_eq_false, if_false, hb, hl, if_true],
        rfl, rfl, rfl, rfl, rfl⟩
    · exact ⟨bail_out STATUS_INVALID_PARAMETER mem ext,
        by simp only [pmemFastIoRead, hirql, ne_eq, not_true_eq_false, if_false, hb, hl,
          if_true],
        rfl, rfl, rfl, rfl, rfl⟩

/-- Witness of claim C5: a zero-length request and a NULL destination. -/
theorem read_rejects_empty_or_null_request_witness :
    ((simKernel pageIndexMemory).KeGetCurrentIrql = PASSIVE_LEVEL ∧ ((0 : Nat) = 0 ∨ 65536 = 0)) ∧
    ((∃ r, PmemRead (simKernel pageIndexMemory) 16
        (simExtension pageIndexMemory AcquisitionMode.Physical) (fun _ => 7) 4096 0 65536
          = some r ∧
      r.Status = STATUS_INVALID_PARAMETER ∧ r.ret = STATUS_INVALID_PARAMETER ∧
      r.Information = 0 ∧ r.calls = [] ∧ r.mem = fun _ => 7) ∧
    (∃ r, pmemFastIoRead (simKernel pageIndexMemory) 16
        (simExtension pageIndexMemory AcquisitionMode.Physical) (fun _ => 7) 4096 0 65536
          = some r ∧
      r.Status = STATUS_INVALID_PARAMETER ∧ r.ret = false ∧
      r.Information = 0 ∧ r.calls = [] ∧ r.mem = fun _ => 7)) :=
  ⟨⟨rfl, Or.inl rfl⟩,
    read_rejects_empty_or_null_request (simKernel pageIndexMemory) 16
      (simExtension pageIndexMemory AcquisitionMode.Physical) (fun _ => 7) 4096 0 65536
      rfl (Or.inl rfl)⟩

/-- Claim C6, as stated, fails for the Fast-I/O entry point: on the request
`offset = 0`, `length = 4096` with a destination whose write probe raises
`STATUS_ACCESS_VIOLATION`, `pmemFastIoRead` stores that exception code, not
`STATUS_SUCCESS`, in the I/O status block (with 0 bytes) and returns FALSE. -/
theorem pmemFastIoRead_probe_fault_status_not_success :
    (pmemFastIoRead badBufferKernel 4096
        (simExtension pageIndexMemory AcquisitionMode.Physical) (fun _ => 0) 0 4096 65536).map
      (fun r => (r.ret, r.Status, r.Information, r.calls.length))
      = some (false, STATUS_ACCESS_VIOLATION, 0, 0) ∧
    STATUS_ACCESS_VIOLATION ≠ STATUS_SUCCESS := by
  decide

/-- Claim C6, amended.  At passive level, for a request with a non-NULL
destination and a positive length whose write probe raises the exception
`code`: `PmemRead` completes the request with 0 bytes and `STATUS_SUCCESS`;
`pmemFastIoRead` stores 0 bytes and the exception code `code` and returns
FALSE; neither invokes a handler nor touches the destination memory. -/
theorem read_probe_fault_transfers_nothing
    (k : Kernel) (fuel : Nat) (ext : DEVICE_EXTENSION) (mem : Memory) (BufOffset : Int)
    (BufLen toxic_buffer : Nat) (code : NTSTATUS)
    (hirql : k.KeGetCurrentIrql = PASSIVE_LEVEL) (hbuf : toxic_buffer ≠ 0) (hlen : 0 < BufLen)
    (hprobe : probeDestination k toxic_buffer BufLen = some code) :
    (∃ r, PmemRead k fuel ext mem BufOffset BufLen toxic_buffer = some r ∧
      r.Information = 0 ∧ r.Status = STATUS_SUCCESS ∧ r.ret = STATUS_SUCCESS ∧
      r.calls = [] ∧ r.mem = mem) ∧
    (∃ r, pmemFastIoRead k fuel ext mem BufOffset BufLen toxic_buffer = some r ∧
      r.Information = 0 ∧ r.Status = code ∧ r.ret = false ∧
      r.calls = [] ∧ r.mem = mem) := by
  have hl : BufLen ≠ 0 := by omega
  constructor
  · exact ⟨PmemRead_exit STATUS_SUCCESS mem ext,
      by simp only [PmemRead, hirql, ne_eq, not_true_eq_false, if_false, hbuf, hl, hprobe],
      rfl, rfl, rfl, rfl, rfl⟩
  · exact ⟨bail_out code mem ext,
      by simp only [pmemFastIoRead, hirql, ne_eq, not_true_eq_false, if_false, hbuf, hl, hprobe],
      rfl, rfl, rfl, rfl, rfl⟩

/-- Witness of claim C6 (amended): `read(offset = 0, length = 4096, badBuffer)`. -/
theorem read_probe_fault_transfers_nothing_witness :
    (badBufferKernel.KeGetCurrentIrql = PASSIVE_LEVEL ∧ (65536 : Nat) ≠ 0 ∧ 0 < 4096 ∧
      probeDestination badBufferKernel 65536 4096 = some STATUS_ACCESS_VIOLATION) ∧
    ((∃ r, PmemRead badBufferKernel 4096
        (simExtension pageIndexMemory AcquisitionMode.Physical) (fun _ => 0) 0 4096 65536
          = some r ∧
      r.Information = 0 ∧ r.Status = STATUS_SUCCESS ∧ r.ret = STATUS_SUCCESS ∧
      r.calls = [] ∧ r.mem = fun _ => 0) ∧
    (∃ r, pmemFastIoRead badBufferKernel 4096
        (simExtension pageIndexMemory AcquisitionMode.Physical) (fun _ => 0) 0 4096 65536
          = some r ∧
      r.Information = 0 ∧ r.Status = STATUS_ACCESS_VIOLATION ∧ r.ret = false ∧
      r.calls = [] ∧ r.mem = fun _ => 0)) :=
  ⟨⟨rfl, by decide, by decide, by decide⟩,
    read_probe_fault_transfers_nothing badBufferKernel 4096
      (simExtension pageIndexMemory AcquisitionMode.Physical) (fun _ => 0) 0 4096 65536
      STATUS_ACCESS_VIOLATION rfl (by decide) (by decide) (by decide)⟩

theorem tmod_of_neg (o : Int) (h : o < 0) : Int.tmod o 4096 = -((-o) % 4096) := by
  cases o with
  | ofNat n => exact absurd h (by simp)
  | negSucc n =>
    have e : Int.tmod (Int.negSucc n) 4096 = -(((n + 1) % 4096 : Nat) : Int) := rfl
    rw [e, Int.negSucc_eq]
    push_cast
    omega

theorem window_le_to_read (o : Int) (count : Nat) :
    min (PAGE_SIZE - (o % (PAGE_SIZE : Int)).toNat) count ≤ to_read o count := by
  have hPS : PAGE_SIZE = 4096 := rfl
  by_cases h : 0 ≤ o
  · rw [to_read_of_nonneg o count h]
    simp only [hPS, Nat.cast_ofNat]
    omega
  · have ht := tmod_of_neg o (by omega)
    unfold to_read page_offset toULONG
    simp only [hPS, Nat.cast_ofNat, ht]
    omega

theorem RtlZeroMemory_inside (mem : Memory) (dst n j : Nat) (h : j < n) :
    RtlZeroMemory mem dst n (dst + j) = 0 := by
  unfold RtlZeroMemory
  have h1 : dst ≤ dst + j ∧ dst + j < dst + n := by omega
  simp [h1]

/-- Claim C7.  When the view-map call of the section-mapped strategy fails,
the first `min (PAGE_SIZE - offset mod PAGE_SIZE) count` bytes of the
destination window are zero after the call; when the mapping step of the
I/O-space or of the PTE strategy fails, every byte of the memory is as before
the call. -/
theorem mapping_failure_frame
    (k : Kernel) (ext : DEVICE_EXTENSION) (mode : AcquisitionMode) (handler : Handler)
    (offset : Int) (mem : Memory) (buf count : Nat)
    (hs : strategyOf k mode = some handler)
    (hfail : MappingStepFails k ext offset mode = true) :
    (mode = AcquisitionMode.Physical →
      ∀ j, j < min (PAGE_SIZE - (offset % (PAGE_SIZE : Int)).toNat) count →
        (handler ext offset mem buf count).mem (buf + j) = 0) ∧
    (mode ≠ AcquisitionMode.Physical →
      ∀ a, (handler ext offset mem buf count).mem a = mem a) := by
  cases mode with
  | Physical =>
    simp only [strategyOf, Option.some.injEq] at hs
    subst hs
    refine ⟨fun _ j hj => ?_, fun h => absurd rfl h⟩
    have hw := window_le_to_read offset count
    rcases hE : EnsureExtensionHandle k ext with ⟨b, ext1, ps⟩
    cases b with
    | false => simp [MappingStepFails, hE] at hfail
    | true =>
      simp only [MappingStepFails, hE, Option.isNone_iff_eq_none] at hfail
      simp only [PhysicalMemoryPartialRead, hE, hfail]
      exact RtlZeroMemory_inside _ _ _ _ (by omega)
  | IoSpace =>
    simp only [strategyOf, Option.some.injEq] at hs
    subst hs
    refine ⟨fun h => AcquisitionMode.noConfusion h, fun _ a => ?_⟩
    simp only [MappingStepFails, Option.isNone_iff_eq_none] at hfail
    simp only [MapIOPagePartialRead, hfail]
  | Pte =>
    simp only [strategyOf, Option.some.injEq] at hs
    subst hs
    refine ⟨fun h => AcquisitionMode.noConfusion h, fun _ a => ?_⟩
    cases hm : ext.pte_mmapper with
    | none => simp only [PTEMmapPartialRead, hm]
    | some m =>
      simp only [MappingStepFails, hm, Option.isNone_iff_eq_none] at hfail
      simp only [PTEMmapPartialRead, hm, hfail]
  | Unsupported => simp [strategyOf] at hs

/-- Witness of claim C7: the three strategies at the unaligned offset
`4096 + 10` with count 4096, over a kernel in which no mapping succeeds and a
destination filled with the byte 7. -/
theorem mapping_failure_frame_witness :
    ((MappingStepFails noMapKernel (noRemapExtension AcquisitionMode.Physical) 4106
        AcquisitionMode.Physical = true) ∧
      ((AcquisitionMode.Physical = AcquisitionMode.Physical →
        ∀ j, j < min (PAGE_SIZE - ((4106 : Int) % (PAGE_SIZE : Int)).toNat) 4096 →
          (PhysicalMemoryPartialRead noMapKernel (noRemapExtension AcquisitionMode.Physical)
            4106 (fun _ => 7) 65536 4096).mem (65536 + j) = 0) ∧
      (AcquisitionMode.Physical ≠ AcquisitionMode.Physical →
        ∀ a, (PhysicalMemoryPartialRead noMapKernel (noRemapExtension AcquisitionMode.Physical)
            4106 (fun _ => 7) 65536 4096).mem a = (fun _ => 7) a))) ∧
    ((MappingStepFails noMapKernel (noRemapExtension AcquisitionMode.Pte) 4106
        AcquisitionMode.Pte = true) ∧
      ((AcquisitionMode.Pte = AcquisitionMode.Physical →
        ∀ j, j < min (PAGE_SIZE - ((4106 : Int) % (PAGE_SIZE : Int)).toNat) 4096 →
          (PTEMmapPartialRead noMapKernel (noRemapExtension AcquisitionMode.Pte)
            4106 (fun _ => 7) 65536 4096).mem (65536 + j) = 0) ∧
      (AcquisitionMode.Pte ≠ AcquisitionMode.Physical →
        ∀ a, (PTEMmapPartialRead noMapKernel (noRemapExtension AcquisitionMode.Pte)
            4106 (fun _ => 7) 65536 4096).mem a = (fun _ => 7) a))) :=
  ⟨⟨by decide,
      mapping_failure_frame noMapKernel (noRemapExtension AcquisitionMode.Physical)
        AcquisitionMode.Physical (PhysicalMemoryPartialRead noMapKernel) 4106 (fun _ => 7)
        65536 4096 rfl (by decide)⟩,
    ⟨by decide,
      mapping_failure_frame noMapKernel (noRemapExtension AcquisitionMode.Pte)
        AcquisitionMode.Pte (PTEMmapPartialRead noMapKernel) 4106 (fun _ => 7)
        65536 4096 rfl (by decide)⟩⟩

/-- The return paths of the loop of `DeviceRead` that pass through `end:`
release the mutex: when `IoAllocateMdl` never fails, the mutex is not held in
any returned result. -/
theorem DeviceRead_loop_releases_when_mdl_allocated (k : Kernel) (handler : Handler)
    (length : Nat) (hmdl : ∀ va len, k.IoAllocateMdl va len = true) :
    ∀ (fuel : Nat) (ext : DEVICE_EXTENSION) (o : Int) (tb total : Nat) (mem : Memory)
      (calls : List HandlerCall) (r : ReadResult),
      DeviceRead_loop k handler length fuel ext o tb total mem calls = some r →
      r.ext.mu = false := by
  intro fuel
  induction fuel with
  | zero =>
    intro ext o tb total mem calls r h
    by_cases hlt : total < length
    · simp [DeviceRead_loop, hlt] at h
    · rw [DeviceRead_loop_done k handler _ _ ext o tb _ mem calls hlt] at h
      cases h; rfl
  | succ fuel ih =>
    intro ext o tb total mem calls r h
    by_cases hlt : total < length
    · have hA := hmdl tb (min PAGE_SIZE (length - total))
      cases hP : k.MmProbeAndLockPages tb (min PAGE_SIZE (length - total)) with
      | some code =>
        simp only [DeviceRead_loop, hlt, if_true, hA, hP, Bool.true_eq_false, if_false,
          Option.some.injEq] at h
        subst h; rfl
      | none =>
        cases hG : k.MmGetSystemAddressForMdlSafe tb (min PAGE_SIZE (length - total)) with
        | false =>
          simp only [DeviceRead_loop, hlt, if_true, hA, hP, hG, Bool.true_eq_false, if_false,
            Option.some.injEq] at h
          subst h; rfl
        | true =>
          rw [DeviceRead_loop_step k handler length fuel ext o tb total mem calls hlt hA hP hG]
            at h
          split at h
          · cases h; rfl
          · exact ih _ _ _ _ _ _ r h
    · rw [DeviceRead_loop_done k handler _ _ ext o tb _ mem calls hlt] at h
      cases h; rfl

/-- Claim C8, the code's divergence.  When `IoAllocateMdl` returns NULL for the
first window of the request `offset = 0`, `length = 4096`, `DeviceRead`
returns `STATUS_INSUFFICIENT_RESOURCES` with the fast mutex still held (the
extension entered with the mutex free); on the same request with a pin fault,
a missing system address or a failing strategy the mutex is released. -/
theorem DeviceRead_mdl_failure_keeps_mutex :
    (simExtension pageIndexMemory AcquisitionMode.IoSpace).mu = false ∧
    (DeviceRead noMdlKernel 4096 (simExtension pageIndexMemory AcquisitionMode.IoSpace) 0
        (fun _ => 0) 65536 4096 (MapIOPagePartialRead noMdlKernel)).map
      (fun r => (r.status, r.total_read, r.ext.mu, r.calls.length))
      = some (STATUS_INSUFFICIENT_RESOURCES, 0, true, 0) ∧
    (DeviceRead noMapKernel 4096 (simExtension pageIndexMemory AcquisitionMode.IoSpace) 0
        (fun _ => 0) 65536 4096 (MapIOPagePartialRead noMapKernel)).map
      (fun r => (r.status, r.total_read, r.ext.mu, r.calls.length))
      = some (STATUS_IO_DEVICE_ERROR, 0, false, 1) := by
  decide

/-- The two sibling strategies hand the floor-aligned base to their mapping
primitive: for a non-negative offset below `2^63`, `MapIOPagePartialRead`
calls `MmMapIoSpace` first, and `PTEMmapPartialRead` (with a remapper present)
calls `remap_page` only, each with `offset - offset mod PAGE_SIZE`. -/
theorem sibling_strategies_map_aligned_base (k : Kernel) (ext : DEVICE_EXTENSION)
    (m : PTE_MMAP_OBJ) (offset : Int) (mem : Memory) (buf count : Nat)
    (ho : 0 ≤ offset) (ho2 : offset < 9223372036854775808) (hm : ext.pte_mmapper = some m) :
    (MapIOPagePartialRead k ext offset mem buf count).prims.head?
      = some (Prim.MmMapIoSpace (offset - offset % 4096)) ∧
    (PTEMmapPartialRead k ext offset mem buf count).prims
      = [Prim.remap_page (offset - offset % 4096)] := by
  have hvb := viewBase_of_nonneg offset ho ho2
  constructor
  · simp only [MapIOPagePartialRead, hvb]
    split
    · split <;> rfl
    · rfl
  · simp only [PTEMmapPartialRead, hm, hvb]
    split
    · rfl
    · split <;> rfl

/-- Claim C9, the code's divergence.  At the unaligned offset `4096 + 10`,
`PhysicalMemoryPartialRead` hands the section offset 4106 itself to
`ZwMapViewOfSection`, not the floor-aligned base 4096, while the two sibling
strategies hand 4096 to `MmMapIoSpace` and to `remap_page`; all three copy from
the intra-page offset 10. -/
theorem PhysicalMemoryPartialRead_maps_unaligned_offset :
    (PhysicalMemoryPartialRead (simKernel pageIndexMemory)
        (simExtension pageIndexMemory AcquisitionMode.Physical) 4106 (fun _ => 0) 65536 100).prims
      = [Prim.ZwOpenSection, Prim.ZwMapViewOfSection 4106, Prim.ZwUnmapViewOfSection] ∧
    (4106 : Int) - 4106 % 4096 = 4096 ∧
    (MapIOPagePartialRead (simKernel pageIndexMemory)
        (simExtension pageIndexMemory AcquisitionMode.IoSpace) 4106 (fun _ => 0) 65536 100).prims
      = [Prim.MmMapIoSpace 4096, Prim.MmUnmapIoSpace] ∧
    (PTEMmapPartialRead (simKernel pageIndexMemory)
        (simExtension pageIndexMemory AcquisitionMode.Pte) 4106 (fun _ => 0) 65536 100).prims
      = [Prim.remap_page 4096] ∧
    page_offset 4106 = 10 := by
  decide

/-- On a failing mapping step the two sibling strategies return 0. -/
theorem sibling_strategies_return_zero_on_mapping_failure
    (k : Kernel) (ext : DEVICE_EXTENSION) (mode : AcquisitionMode) (handler : Handler)
    (offset : Int) (mem : Memory) (buf count : Nat)
    (hs : strategyOf k mode = some handler) (hmode : mode ≠ AcquisitionMode.Physical)
    (hfail : MappingStepFails k ext offset mode = true) :
    (handler ext offset mem buf count).ret = 0 := by
  cases mode with
  | Physical => exact absurd rfl hmode
  | IoSpace =>
    simp only [strategyOf, Option.some.injEq] at hs
    subst hs
    simp only [MappingStepFails, Option.isNone_iff_eq_none] at hfail
    simp only [MapIOPagePartialRead, hfail]
  | Pte =>
    simp only [strategyOf, Option.some.injEq] at hs
    subst hs
    cases hm : ext.pte_mmapper with
    | none => simp only [PTEMmapPartialRead, hm]
    | some m =>
      simp only [MappingStepFails, hm, Option.isNone_iff_eq_none] at hfail
      simp only [PTEMmapPartialRead, hm, hfail]
  | Unsupported => simp [strategyOf] at hs

theorem window_arithmetic (o : Int) (count : Nat) (ho : 0 ≤ o) (hc : 0 < count) :
    page_offset o < PAGE_SIZE ∧ 0 < to_read o count ∧
      to_read o count ≤ PAGE_SIZE - page_offset o ∧ to_read o count ≤ count := by
  have h1 := page_offset_of_nonneg o ho
  have h2 := to_read_of_nonneg o count ho
  have hPS : PAGE_SIZE = 4096 := rfl
  omega

theorem steps_exact (length : Nat) (cs : List HandlerCall) :
    ∀ (o : Int) (total : Nat), 0 ≤ o →
      o + ((length - total : Nat) : Int) < 9223372036854775808 → total ≤ length →
      Steps length o total cs →
      ∀ (i : Nat) (hi : i < cs.length),
        (cs[i]).offset = o + ((((cs.take i).map (fun c => c.ret)).sum : Nat) : Int) ∧
        total + ((cs.take (i + 1)).map (fun c => c.ret)).sum ≤ length ∧
        0 < (cs[i]).count ∧ (cs[i]).ret ≤ (cs[i]).count := by
  induction cs with
  | nil => intro o total _ _ _ _ i hi; simp at hi
  | cons c cs ih =>
    intro o total ho hend hle hsteps i hi
    obtain ⟨hlt, hoff, hcount, hret, hrest⟩ := hsteps
    have hPS : PAGE_SIZE = 4096 := rfl
    cases i with
    | zero =>
      simp only [List.getElem_cons_zero, List.take_zero, List.map_nil, List.sum_nil,
        Nat.cast_zero, add_zero, List.take_succ_cons, List.map_cons, List.sum_cons]
      exact ⟨hoff, by omega, by omega, hret⟩
    | succ j =>
      have hll : toLONGLONG (o + (c.ret : Int)) = o + (c.ret : Int) :=
        toLONGLONG_of_range _ (by omega) (by omega)
      rw [hll] at hrest
      obtain ⟨h1, h2, h3, h4⟩ :=
        ih (o + (c.ret : Int)) (total + c.ret) (by omega) (by omega) (by omega) hrest j
          (by simpa using hi)
      simp only [List.getElem_cons_succ, List.take_succ_cons, List.map_cons, List.sum_cons,
        Nat.cast_add]
      exact ⟨by rw [h1]; omega, by omega, h3, h4⟩

/-- Claim C10, as stated, fails above the signed range: the unsigned 64-bit
offset `2^64 - 1` is held in the signed `QuadPart` as `-1`, for which the
computed `page_offset` is `2^32 - 1`, outside `[0, PAGE_SIZE)`, and for count
4096 the computed `to_read` is 4096, more than `PAGE_SIZE - page_offset`; and
from offset `2^63 - 1` a two-byte request advances the offset to `-2^63`. -/
theorem page_offset_wraps_above_signed_range :
    asQuadPart 18446744073709551615 = -1 ∧
    page_offset (asQuadPart 18446744073709551615) = 4294967295 ∧
    ¬ (page_offset (asQuadPart 18446744073709551615) < PAGE_SIZE) ∧
    to_read (asQuadPart 18446744073709551615) 4096 = 4096 ∧
    ¬ ((to_read (asQuadPart 18446744073709551615) 4096 : Int)
        ≤ (PAGE_SIZE : Int) - (page_offset (asQuadPart 18446744073709551615) : Int)) ∧
    (DeviceRead (simKernel pageIndexMemory) 2
        (simExtension pageIndexMemory AcquisitionMode.IoSpace) 9223372036854775807
        (fun _ => 0) 65536 2 (MapIOPagePartialRead (simKernel pageIndexMemory))).map
      (fun r => r.calls.map (fun c => c.offset))
      = some [9223372036854775807, -9223372036854775808] := by
  decide

/-- Claim C10, amended.  For every non-negative offset (as held in the signed
64-bit field) and every count > 0 the window arithmetic of the strategies is
exact: `page_offset < PAGE_SIZE`, `0 < to_read ≤ PAGE_SIZE - page_offset` and
`to_read ≤ count`.  For every request with `0 ≤ offset` and
`offset + length < 2^63`, whatever the kernel services do, `DeviceRead` over
any of the three strategies returns (given fuel for `length` iterations) with
`*total_read ≤ length`, and at each handler invocation the offset is the exact
sum of the start offset and the bytes returned so far, advancing it does not
leave the signed range, the running total stays within `length`, and the
window arithmetic is exact for the arguments of the invocation. -/
theorem window_arithmetic_exact_in_signed_range
    (k : Kernel) (mode : AcquisitionMode) (handler : Handler) (ext : DEVICE_EXTENSION)
    (offset : Int) (length : Nat) (mem : Memory) (toxic_buffer fuel : Nat)
    (hs : strategyOf k mode = some handler)
    (hoff : 0 ≤ offset) (hend : offset + (length : Int) < 9223372036854775808)
    (hlen32 : length < 4294967296) (hfuel : length ≤ fuel) :
    (∀ (o : Int) (count : Nat), 0 ≤ o → 0 < count →
      page_offset o < PAGE_SIZE ∧ 0 < to_read o count ∧
        to_read o count ≤ PAGE_SIZE - page_offset o ∧ to_read o count ≤ count) ∧
    ∃ r, DeviceRead k fuel ext offset mem toxic_buffer length handler = some r ∧
      r.total_read ≤ length ∧
      ∀ (i : Nat) (hi : i < r.calls.length),
        (r.calls[i]).offset
          = offset + ((((r.calls.take i).map (fun c => c.ret)).sum : Nat) : Int) ∧
        0 ≤ (r.calls[i]).offset ∧
        (r.calls[i]).offset + ((r.calls[i]).ret : Int) < 9223372036854775808 ∧
        ((r.calls.take (i + 1)).map (fun c => c.ret)).sum ≤ length ∧
        0 < (r.calls[i]).count ∧
        page_offset (r.calls[i]).offset < PAGE_SIZE ∧
        0 < to_read (r.calls[i]).offset (r.calls[i]).count ∧
        to_read (r.calls[i]).offset (r.calls[i]).count
          ≤ PAGE_SIZE - page_offset (r.calls[i]).offset ∧
        to_read (r.calls[i]).offset (r.calls[i]).count ≤ (r.calls[i]).count ∧
        (r.calls[i]).ret ≤ (r.calls[i]).count := by
  refine ⟨window_arithmetic, ?_⟩
  obtain ⟨r, hr, cs, hcs, _, htl, hsteps, _⟩ :=
    loop_trace (strategy_bounded k mode handler hs) length hlen32 fuel { ext with mu := true }
      offset toxic_buffer 0 mem [] (Nat.zero_le _) (by simpa using hfuel)
  simp only [List.nil_append] at hcs
  subst hcs
  refine ⟨r, hr, htl, ?_⟩
  intro i hi
  obtain ⟨h1, h2, h3, h4⟩ :=
    steps_exact length r.calls offset 0 hoff (by simpa using hend) (Nat.zero_le _) hsteps i hi
  have hsum := List.sum_take_succ (r.calls.map (fun c => c.ret)) i (by simpa using hi)
  rw [List.getElem_map, ← List.map_take, ← List.map_take] at hsum
  have hnn : 0 ≤ (r.calls[i]).offset := by rw [h1]; omega
  obtain ⟨w1, w2, w3, w4⟩ := window_arithmetic (r.calls[i]).offset (r.calls[i]).count hnn h3
  exact ⟨h1, hnn, by rw [h1]; omega, by omega, h3, w1, w2, w3, w4, h4⟩

/-- Witness of claim C10 (amended): the request `offset = 4096 + 10`,
`length = 4096` in the section-mapped mode over a kernel in which no mapping
succeeds. -/
theorem window_arithmetic_exact_in_signed_range_witness :
    ((0 : Int) ≤ 4106 ∧ (4106 : Int) + ((4096 : Nat) : Int) < 9223372036854775808 ∧
      4096 < 4294967296 ∧ 4096 ≤ 4096) ∧
    ((∀ (o : Int) (count : Nat), 0 ≤ o → 0 < count →
      page_offset o < PAGE_SIZE ∧ 0 < to_read o count ∧
        to_read o count ≤ PAGE_SIZE - page_offset o ∧ to_read o count ≤ count) ∧
    ∃ r, DeviceRead noMapKernel 4096 (noRemapExtension AcquisitionMode.Physical) 4106
        (fun _ => 0) 65536 4096 (PhysicalMemoryPartialRead noMapKernel) = some r ∧
      r.total_read ≤ 4096 ∧
      ∀ (i : Nat) (hi : i < r.calls.length),
        (r.calls[i]).offset
          = 4106 + ((((r.calls.take i).map (fun c => c.ret)).sum : Nat) : Int) ∧
        0 ≤ (r.calls[i]).offset ∧
        (r.calls[i]).offset + ((r.calls[i]).ret : Int) < 9223372036854775808 ∧
        ((r.calls.take (i + 1)).map (fun c => c.ret)).sum ≤ 4096 ∧
        0 < (r.calls[i]).count ∧
        page_offset (r.calls[i]).offset < PAGE_SIZE ∧
        0 < to_read (r.calls[i]).offset (r.calls[i]).count ∧
        to_read (r.calls[i]).offset (r.calls[i]).count
          ≤ PAGE_SIZE - page_offset (r.calls[i]).offset ∧
        to_read (r.calls[i]).offset (r.calls[i]).count ≤ (r.calls[i]).count ∧
        (r.calls[i]).ret ≤ (r.calls[i]).count) :=
  ⟨⟨by decide, by decide, by decide, by decide⟩,
    window_arithmetic_exact_in_signed_range noMapKernel AcquisitionMode.Physical
      (PhysicalMemoryPartialRead noMapKernel) (noRemapExtension AcquisitionMode.Physical)
      4106 4096 (fun _ => 0) 65536 4096 rfl (by decide) (by decide) (by decide) (by decide)⟩

end WinPmem
